import Mathlib

/-!
Shallow embedding of `sim/src/make/scenario.rs` (scenario instantiation for a
transportation micro-simulation): the demand data model, vehicle assignment,
BFS parking allocation, trip-spec resolution, and the schedule utilities, with
theorems checking the natural-language specification against the code.
Identifiers follow the Rust source wherever Lean permits.
-/

set_option maxRecDepth 8000

/-- State of the external xorshift generator (`rand_xorshift` crate), modelled
shallowly as a single natural-number state with an LCG-style step.  All claims
proved below depend only on how the generator is threaded, never on the
particular values drawn. -/
structure Rng where
  state : Nat
deriving DecidableEq

/-- One draw from the generator: an output value and the successor state. -/
def rngNext (r : Rng) : Nat × Rng :=
  (r.state % 4294967296,
   ⟨(r.state * 6364136223846793005 + 1442695040888963407) % 18446744073709551616⟩)

/-- The first `k` outputs of the generator, in order. -/
def rngOutputs (r : Rng) : Nat → List Nat
  | 0 => []
  | k + 1 => (rngNext r).1 :: rngOutputs (rngNext r).2 k

/-- Modelled from the spec: `abstutil::fork_rng` is repository code that is not
under `src/` (only its call sites are).  Per the spec, `fork(rng) -> rng'`
produces a child generator seeded deterministically from the current state of
the parent, such that calling `fork` does not change what the parent would
subsequently produce.  We return `(child, parent after the fork)` with the
parent unchanged, exactly as those words dictate. -/
def fork_rng (r : Rng) : Rng × Rng :=
  (⟨(r.state * 2862933555777941757 + 3037000493) % 18446744073709551616⟩, r)

/-- Embeds `VehicleType` (car or bike). -/
inductive VehicleType
  | Car
  | Bike
deriving DecidableEq

/-- Embeds `VehicleSpec`: a type, a length and an optional maximum speed.
Distances and speeds are modelled as naturals. -/
structure VehicleSpec where
  vehicle_type : VehicleType
  length : Nat
  max_speed : Option Nat
deriving DecidableEq

/-- External constants of the sim crate (`MIN_CAR_LENGTH` etc.), used only as
data for the random draws; their numeric values never matter to the claims. -/
def MIN_CAR_LENGTH : Nat := 45

/-- External constant, see `MIN_CAR_LENGTH`. -/
def MAX_CAR_LENGTH : Nat := 65

/-- External constant, see `MIN_CAR_LENGTH`. -/
def BIKE_LENGTH : Nat := 18

/-- Embeds `Scenario::rand_dist`: one bounded uniform draw from the
generator. -/
def rand_dist (rng : Rng) (low high : Nat) : Nat × Rng :=
  let (d, rng') := rngNext rng
  (low + d % (high - low), rng')

/-- Embeds `Scenario::rand_speed`: one bounded uniform draw. -/
def rand_speed (rng : Rng) (low high : Nat) : Nat × Rng :=
  let (d, rng') := rngNext rng
  (low + d % (high - low), rng')

/-- Embeds `Scenario::rand_car`: a car whose length is one random draw. -/
def rand_car (rng : Rng) : VehicleSpec × Rng :=
  let (len, rng') := rand_dist rng MIN_CAR_LENGTH MAX_CAR_LENGTH
  (⟨VehicleType.Car, len, none⟩, rng')

/-- Embeds `Scenario::rand_bike`: a bike whose max speed is one random draw. -/
def rand_bike (rng : Rng) : VehicleSpec × Rng :=
  let (s, rng') := rand_speed rng 80 100
  (⟨VehicleType.Bike, BIKE_LENGTH, some s⟩, rng')

/-- Embeds `Scenario::rand_ped_speed`: one random draw. -/
def rand_ped_speed (rng : Rng) : Nat × Rng :=
  rand_speed rng 20 30

/-- Embeds `DrivingGoal`: park near a building, or leave via a border
intersection (the border carries its destination lane). -/
inductive DrivingGoal
  | ParkNear (b : Nat)
  | Border (i : Nat) (l : Nat)
deriving DecidableEq

/-- Embeds `Position`: a lane plus a distance along it. -/
structure Position where
  lane : Nat
  dist : Nat
deriving DecidableEq

/-- Embeds the two `SidewalkPOI` connections a scenario's sidewalk spots use
(the remaining variants of the external type are unreachable here, as the
source's `unreachable!` arms assert). -/
inductive SidewalkPOI
  | Building (b : Nat)
  | Border (i : Nat)
deriving DecidableEq

/-- Embeds `SidewalkSpot` restricted to its `connection` field, the only field
this module reads. -/
structure SidewalkSpot where
  connection : SidewalkPOI
deriving DecidableEq

/-- Embeds `enum SpawnTrip`. -/
inductive SpawnTrip
  | VehicleAppearing (start : Position) (goal : DrivingGoal) (is_bike : Bool)
  | FromBorder (i : Nat) (goal : DrivingGoal) (is_bike : Bool)
  | UsingParkedCar (b : Nat) (goal : DrivingGoal)
  | UsingBike (start : SidewalkSpot) (goal : DrivingGoal)
  | JustWalking (start : SidewalkSpot) (goal : SidewalkSpot)
  | UsingTransit (start : SidewalkSpot) (goal : SidewalkSpot)
      (route : Nat) (stop1 : Nat) (stop2 : Nat)
deriving DecidableEq

/-- Embeds `IndividTrip`: a departure time (seconds) and a trip. -/
structure IndividTrip where
  depart : Nat
  trip : SpawnTrip
deriving DecidableEq

/-- Embeds `PersonSpec` (`PersonID` is modelled as its underlying index). -/
structure PersonSpec where
  id : Nat
  orig_id : Nat × Nat
  trips : List IndividTrip
deriving DecidableEq

/-- Embeds `struct Scenario` (named `ScenarioSpec` in this development);
`only_seed_buses` keeps the `BTreeSet` as a list of route names. -/
structure ScenarioSpec where
  scenario_name : String
  map_name : String
  people : List PersonSpec
  only_seed_buses : Option (List String)
deriving DecidableEq

/-- Embeds `TripEndpoint`: at a building, or at a border intersection. -/
inductive TripEndpoint
  | Bldg (b : Nat)
  | Border (i : Nat)
deriving DecidableEq

/-- The external road/map collaborator, as the oracle interface the spec's
external-interfaces section lists: adjacency, building→road and
building→sidewalk lookups, lane data, outgoing border lanes per movement
class, the external `TripSpec::spawn_vehicle_at` helper, and bus routes. -/
structure MapM where
  building_to_road : Nat → Nat
  get_next_roads : Nat → List Nat
  lane_src_i : Nat → Nat
  lane_parent : Nat → Nat
  bldg_sidewalk : Nat → Nat
  outgoing_lanes : Nat → Bool → List Nat
  spawn_vehicle_at : Position → Bool → Option Position
  all_roads : List Nat
  bus_routes : List String

/-- Embeds `SpawnTrip::start`. -/
def tripStart (m : MapM) : SpawnTrip → TripEndpoint
  | .VehicleAppearing start _ _ => .Border (m.lane_src_i start.lane)
  | .FromBorder i _ _ => .Border i
  | .UsingParkedCar b _ => .Bldg b
  | .UsingBike s _ => match s.connection with
    | .Building b => .Bldg b
    | .Border i => .Border i
  | .JustWalking s _ => match s.connection with
    | .Building b => .Bldg b
    | .Border i => .Border i
  | .UsingTransit s _ _ _ _ => match s.connection with
    | .Building b => .Bldg b
    | .Border i => .Border i

/-- Embeds `SpawnTrip::end`. -/
def tripEnd : SpawnTrip → TripEndpoint
  | .VehicleAppearing _ goal _ => match goal with
    | .ParkNear b => .Bldg b
    | .Border i _ => .Border i
  | .FromBorder _ goal _ => match goal with
    | .ParkNear b => .Bldg b
    | .Border i _ => .Border i
  | .UsingParkedCar _ goal => match goal with
    | .ParkNear b => .Bldg b
    | .Border i _ => .Border i
  | .UsingBike _ goal => match goal with
    | .ParkNear b => .Bldg b
    | .Border i _ => .Border i
  | .JustWalking _ s => match s.connection with
    | .Building b => .Bldg b
    | .Border i => .Border i
  | .UsingTransit _ s _ _ _ => match s.connection with
    | .Building b => .Bldg b
    | .Border i => .Border i

/-- The building an endpoint sits at, as `remove_weird_schedules` computes it:
`Bldg b` gives `some b`, any border gives `none`. -/
def endpointBldg : TripEndpoint → Option Nat
  | .Bldg b => some b
  | .Border _ => none

/-- The per-person continuity check inside `Scenario::remove_weird_schedules`:
walking consecutive trip pairs, each end building must equal the next start
building, borders collapsing to `none`.  The source breaks at the first
mismatch, which agrees with `List.all`. -/
def personOk (m : MapM) (p : PersonSpec) : Bool :=
  (p.trips.zip (p.trips.drop 1)).all fun pr =>
    endpointBldg (tripEnd pr.1.trip) == endpointBldg (tripStart m pr.2.trip)

/-- Embeds `Scenario::remove_weird_schedules`: drop every person failing the
continuity check, then reassign dense sequential identities. -/
def remove_weird_schedules (s : ScenarioSpec) (m : MapM) : ScenarioSpec :=
  let kept := s.people.filter fun p => personOk m p
  { s with people := kept.enum.map fun pr => { pr.2 with id := pr.1 } }

/-- Embeds the inbound-trip test inside `Scenario::repeat_days`: a non-bike
vehicle appearing mid-map. -/
def isInbound : SpawnTrip → Bool
  | .VehicleAppearing _ _ is_bike => !is_bike
  | _ => false

/-- Embeds `Scenario::repeat_days`: replicate each person's trips across
`days` days (24h = 86400 seconds per offset step), optionally suppressing
inbound trips on every day after the first. -/
def repeat_days (s : ScenarioSpec) (days : Nat) (avoid_inbound_trips : Bool) :
    ScenarioSpec :=
  { s with
    scenario_name := s.scenario_name ++ " repeated for " ++ toString days ++ " days",
    people := s.people.map fun person =>
      { person with trips :=
          ((List.range days).map fun day =>
            person.trips.filterMap fun trip =>
              if day > 0 && isInbound trip.trip && avoid_inbound_trips then none
              else some { trip with depart := trip.depart + day * 86400 }).flatten } }

/-- Follows the spec's words for continuity: endpoints match when they are the
same building, or when both are borders (any two border endpoints, even at
different intersections, are considered equal). -/
def endpointEquiv : TripEndpoint → TripEndpoint → Prop
  | .Bldg b1, .Bldg b2 => b1 = b2
  | .Border _, .Border _ => True
  | _, _ => False

instance : DecidableRel endpointEquiv := fun a b =>
  match a, b with
  | .Bldg b1, .Bldg b2 => inferInstanceAs (Decidable (b1 = b2))
  | .Border _, .Border _ => .isTrue trivial
  | .Bldg _, .Border _ => .isFalse fun h => h
  | .Border _, .Bldg _ => .isFalse fun h => h

/-- The car binding `PersonSpec::get_vehicles` pushes after a driving trip:
parked at the goal building, or off-map (`none`) when the goal is a border. -/
def goalLoc : DrivingGoal → Option Nat
  | .ParkNear b => some b
  | .Border _ _ => none

/-- The mutable state of the `PersonSpec::get_vehicles` loop: the three
outputs being accumulated, the lazily created bike index, the per-car
location bindings, and the generator. -/
structure GvState where
  vehicle_specs : List VehicleSpec
  cars_initially_parked_at : List (Nat × Nat)
  vehicle_foreach_trip : List (Option Nat)
  bike_idx : Option Nat
  car_locations : List (Nat × Option Nat)
  rng : Rng
deriving DecidableEq

/-- Embeds the bike arm of `get_vehicles` (both the `is_bike` driving arm and
the `UsingBike` arm): create the single bike lazily, then reuse it. -/
def gvBike (st : GvState) : GvState :=
  match st.bike_idx with
  | some i =>
    { st with vehicle_foreach_trip := st.vehicle_foreach_trip ++ [some i] }
  | none =>
    let i := st.vehicle_specs.length
    let (spec, rng') := rand_bike st.rng
    { st with vehicle_specs := st.vehicle_specs ++ [spec], bike_idx := some i,
              rng := rng',
              vehicle_foreach_trip := st.vehicle_foreach_trip ++ [some i] }

/-- Embeds the non-bike `VehicleAppearing`/`FromBorder` arm of `get_vehicles`:
reuse the first off-map car if any, else create one; then retire the car's old
binding and bind it according to the goal. -/
def gvCarTrip (st : GvState) (goal : DrivingGoal) : GvState :=
  let (idx, st1) :=
    match st.car_locations.find? fun pr => pr.2.isNone with
    | some pr => (pr.1, st)
    | none =>
      let i := st.vehicle_specs.length
      let (spec, rng') := rand_car st.rng
      (i, { st with vehicle_specs := st.vehicle_specs ++ [spec], rng := rng' })
  { st1 with
    car_locations :=
      (st1.car_locations.filter fun pr => idx != pr.1) ++ [(idx, goalLoc goal)],
    vehicle_foreach_trip := st1.vehicle_foreach_trip ++ [some idx] }

/-- Embeds the `UsingParkedCar` arm of `get_vehicles`: reuse the car bound to
this building if any, else create one and record it as initially parked here;
then rebind it according to the goal. -/
def gvParkedCar (st : GvState) (b : Nat) (goal : DrivingGoal) : GvState :=
  let (idx, st1) :=
    match st.car_locations.find? fun pr => pr.2 == some b with
    | some pr => (pr.1, st)
    | none =>
      let i := st.vehicle_specs.length
      let (spec, rng') := rand_car st.rng
      (i, { st with vehicle_specs := st.vehicle_specs ++ [spec], rng := rng',
                    cars_initially_parked_at :=
                      st.cars_initially_parked_at ++ [(i, b)] })
  { st1 with
    car_locations :=
      (st1.car_locations.filter fun pr => idx != pr.1) ++ [(idx, goalLoc goal)],
    vehicle_foreach_trip := st1.vehicle_foreach_trip ++ [some idx] }

/-- Embeds the walking/transit arm of `get_vehicles`: no vehicle. -/
def gvWalk (st : GvState) : GvState :=
  { st with vehicle_foreach_trip := st.vehicle_foreach_trip ++ [none] }

/-- One iteration of the `get_vehicles` loop. -/
def gvStep (st : GvState) (t : IndividTrip) : GvState :=
  match t.trip with
  | .VehicleAppearing _ goal is_bike =>
    if is_bike then gvBike st else gvCarTrip st goal
  | .FromBorder _ goal is_bike =>
    if is_bike then gvBike st else gvCarTrip st goal
  | .UsingParkedCar b goal => gvParkedCar st b goal
  | .UsingBike _ _ => gvBike st
  | .JustWalking _ _ => gvWalk st
  | .UsingTransit _ _ _ _ _ => gvWalk st

/-- The `get_vehicles` loop over the person's trips. -/
def gvLoop (st : GvState) : List IndividTrip → GvState
  | [] => st
  | t :: rest => gvLoop (gvStep st t) rest

/-- Embeds `PersonSpec::get_vehicles`, returning the final loop state (whose
first three fields are the triple the Rust function returns, and whose `rng`
is the generator state it leaves behind). -/
def get_vehicles (p : PersonSpec) (rng : Rng) : GvState :=
  gvLoop ⟨[], [], [], none, [], rng⟩ p.trips

lemma all_zip_drop_iff_chain {α : Type} (f : α → α → Bool) :
    ∀ l : List α,
      (((l.zip (l.drop 1)).all fun pr => f pr.1 pr.2) = true ↔
        List.Chain' (fun a b => f a b = true) l)
  | [] => by simp
  | [_] => by simp
  | a :: b :: u => by
    have ih := all_zip_drop_iff_chain f (b :: u)
    simp only [List.drop_succ_cons, List.drop_zero, List.zip_cons_cons,
      List.all_cons, List.chain'_cons, Bool.and_eq_true] at *
    rw [ih]

lemma reindex_enumFrom_content :
    ∀ (n : Nat) (l : List PersonSpec),
      ((l.enumFrom n).map fun pr => { pr.2 with id := pr.1 }).map
          (fun p => (p.orig_id, p.trips)) =
        l.map fun p => (p.orig_id, p.trips)
  | _, [] => rfl
  | n, a :: t => by
    simp only [List.enumFrom, List.map_cons]
    rw [reindex_enumFrom_content (n + 1) t]

lemma reindex_enumFrom_ids :
    ∀ (n : Nat) (l : List PersonSpec),
      ((l.enumFrom n).map fun pr => { pr.2 with id := pr.1 }).map (fun p => p.id) =
        List.range' n l.length
  | _, [] => rfl
  | n, a :: t => by
    simp only [List.enumFrom, List.map_cons]
    rw [reindex_enumFrom_ids (n + 1) t, List.length_cons, List.range'_succ]

/-- C2: `remove_weird_schedules` keeps exactly the people whose consecutive
trips chain (end endpoint matches next start endpoint, any two borders being
considered equal), preserving their relative order and contents, and
re-assigns dense sequential identities 0, 1, 2, … to the survivors. -/
theorem remove_weird_schedules_spec (s : ScenarioSpec) (m : MapM) :
    ((remove_weird_schedules s m).people.map fun p => (p.orig_id, p.trips))
        = ((s.people.filter fun p => personOk m p).map fun p => (p.orig_id, p.trips))
      ∧ ((remove_weird_schedules s m).people.map fun p => p.id)
        = List.range (s.people.filter fun p => personOk m p).length
      ∧ ∀ p : PersonSpec, personOk m p = true ↔
          List.Chain' (fun t1 t2 =>
            endpointEquiv (tripEnd t1.trip) (tripStart m t2.trip)) p.trips := by
  refine ⟨?_, ?_, ?_⟩
  · show (((s.people.filter fun p => personOk m p).enum.map
        fun pr => { pr.2 with id := pr.1 }).map fun p => (p.orig_id, p.trips)) = _
    rw [show (s.people.filter fun p => personOk m p).enum
        = (s.people.filter fun p => personOk m p).enumFrom 0 from rfl]
    exact reindex_enumFrom_content 0 _
  · show (((s.people.filter fun p => personOk m p).enum.map
        fun pr => { pr.2 with id := pr.1 }).map fun p => p.id) = _
    rw [show (s.people.filter fun p => personOk m p).enum
        = (s.people.filter fun p => personOk m p).enumFrom 0 from rfl,
      reindex_enumFrom_ids 0 _, List.range_eq_range']
  · intro p
    rw [personOk,
      all_zip_drop_iff_chain
        (fun t1 t2 => endpointBldg (tripEnd t1.trip) == endpointBldg (tripStart m t2.trip))
        p.trips]
    have hpt : ∀ t1 t2 : IndividTrip,
        ((endpointBldg (tripEnd t1.trip) == endpointBldg (tripStart m t2.trip)) = true) ↔
          endpointEquiv (tripEnd t1.trip) (tripStart m t2.trip) := by
      intro t1 t2
      cases tripEnd t1.trip <;> cases tripStart m t2.trip <;>
        simp [endpointBldg, endpointEquiv]
    exact ⟨fun c => c.imp fun a b hb => (hpt a b).1 hb,
      fun c => c.imp fun a b hb => (hpt a b).2 hb⟩

/-- C6: `repeat_days` with three days and inbound avoidance, on a person with
one inbound (non-bike vehicle-appearing) trip at `d1` and one just-walking
trip at `d`, keeps the inbound trip only on day 0 and repeats the walking trip
at `d`, `d + 24h` and `d + 48h`. -/
theorem repeat_days_avoid_inbound (name mapn : String) (obs : Option (List String))
    (pid : Nat) (oid : Nat × Nat) (d1 d : Nat) (pos : Position) (goal : DrivingGoal)
    (sw1 sw2 : SidewalkSpot) :
    (repeat_days
        ⟨name, mapn,
          [⟨pid, oid, [⟨d1, .VehicleAppearing pos goal false⟩,
            ⟨d, .JustWalking sw1 sw2⟩]⟩], obs⟩ 3 true).people
      = [⟨pid, oid,
          [⟨d1, .VehicleAppearing pos goal false⟩, ⟨d, .JustWalking sw1 sw2⟩,
           ⟨d + 86400, .JustWalking sw1 sw2⟩,
           ⟨d + 172800, .JustWalking sw1 sw2⟩]⟩] := by
  show [{ id := pid, orig_id := oid, trips := _ : PersonSpec }] = _
  norm_num [isInbound, List.range_succ, List.filterMap]

/-- A person with exactly two non-bike vehicle-appearing trips, each with a
border goal (the shape claim C4 quantifies over, at concrete data). -/
def cPersonTwoBorder : PersonSpec :=
  ⟨0, (0, 0),
    [⟨0, .VehicleAppearing ⟨0, 0⟩ (.Border 0 0) false⟩,
     ⟨1, .VehicleAppearing ⟨0, 0⟩ (.Border 0 0) false⟩]⟩

/-- C4 counterexample: for two non-bike vehicle-appearing trips each with a
border goal, `get_vehicles` does NOT create two distinct cars with distinct
indices — the first trip leaves its car off-map, and the second trip's
off-map search reuses index 0, so exactly one car exists and both trips get
the same index. -/
theorem get_vehicles_two_border_counterexample :
    (get_vehicles cPersonTwoBorder ⟨0⟩).vehicle_foreach_trip = [some 0, some 0]
      ∧ ¬ (get_vehicles cPersonTwoBorder ⟨0⟩).vehicle_specs.length = 2 :=
  ⟨rfl, by decide⟩

/-- C4 (amended): a person with exactly two non-bike vehicle-appearing trips
with border goals gets exactly ONE car, both trips being assigned vehicle
index 0 (the second trip reuses the car the first left off-map); and in
general, whenever the car-location state holds an off-map car, the non-bike
vehicle-appearing/border-entering arm reuses the first such car's index and
creates no new vehicle. -/
theorem get_vehicles_offmap_reuse :
    (∀ (pid : Nat) (oid : Nat × Nat) (d1 d2 : Nat) (pos1 pos2 : Position)
        (i1 l1 i2 l2 : Nat) (rng : Rng),
      (get_vehicles ⟨pid, oid,
          [⟨d1, .VehicleAppearing pos1 (.Border i1 l1) false⟩,
           ⟨d2, .VehicleAppearing pos2 (.Border i2 l2) false⟩]⟩ rng).vehicle_specs.length
        = 1
      ∧ (get_vehicles ⟨pid, oid,
          [⟨d1, .VehicleAppearing pos1 (.Border i1 l1) false⟩,
           ⟨d2, .VehicleAppearing pos2 (.Border i2 l2) false⟩]⟩ rng).vehicle_foreach_trip
        = [some 0, some 0])
    ∧ ∀ (st : GvState) (goal : DrivingGoal) (pr : Nat × Option Nat),
        st.car_locations.find? (fun x => x.2.isNone) = some pr →
        (gvCarTrip st goal).vehicle_specs = st.vehicle_specs
        ∧ (gvCarTrip st goal).vehicle_foreach_trip
          = st.vehicle_foreach_trip ++ [some pr.1] := by
  refine ⟨fun pid oid d1 d2 pos1 pos2 i1 l1 i2 l2 rng => ⟨rfl, rfl⟩, ?_⟩
  intro st goal pr h
  unfold gvCarTrip
  rw [h]
  exact ⟨rfl, rfl⟩

/-- A loop state holding one car that is currently off-map. -/
def cStOffmap : GvState :=
  ⟨[⟨.Car, 45, none⟩], [], [some 0], none, [(0, none)], ⟨0⟩⟩

/-- Witness for the amended C4 theorem at concrete data. -/
theorem get_vehicles_offmap_reuse_witness :
    cStOffmap.car_locations.find? (fun x => x.2.isNone) = some (0, none)
    ∧ (gvCarTrip cStOffmap (.Border 3 0)).vehicle_specs = cStOffmap.vehicle_specs
    ∧ (gvCarTrip cStOffmap (.Border 3 0)).vehicle_foreach_trip
      = cStOffmap.vehicle_foreach_trip ++ [some 0] :=
  ⟨rfl, get_vehicles_offmap_reuse.2 cStOffmap (.Border 3 0) (0, none) rfl⟩

/-- A person whose first trip drives to park near building 5 and whose second
trip uses the parked car at building 5 towards a border (claim C5's shape at
concrete data). -/
def cPersonParkThenUse : PersonSpec :=
  ⟨0, (0, 0),
    [⟨0, .VehicleAppearing ⟨0, 0⟩ (.ParkNear 5) false⟩,
     ⟨1, .UsingParkedCar 5 (.Border 7 0)⟩]⟩

/-- C5 counterexample: for [drive with goal park-near 5, then use-parked-car
at 5 to a border], the car is NOT recorded in the initially-parked-at output
(that list stays empty — the parked binding at building 5 arises from trip 1's
resolution, not from initial state), refuting the claim's "records that car in
the initially-parked-at output as parked at B1". -/
theorem get_vehicles_park_then_use_counterexample :
    (get_vehicles cPersonParkThenUse ⟨0⟩).cars_initially_parked_at = []
      ∧ (get_vehicles cPersonParkThenUse ⟨0⟩).vehicle_foreach_trip
        = [some 0, some 0] :=
  ⟨rfl, rfl⟩

lemma gvParkedCar_reuse (st : GvState) (b : Nat) (goal : DrivingGoal)
    (pr : Nat × Option Nat)
    (h : st.car_locations.find? (fun x => x.2 == some b) = some pr) :
    gvParkedCar st b goal = { st with
      car_locations :=
        (st.car_locations.filter fun x => pr.1 != x.1) ++ [(pr.1, goalLoc goal)],
      vehicle_foreach_trip := st.vehicle_foreach_trip ++ [some pr.1] } := by
  unfold gvParkedCar
  rw [h]

/-- C5 (amended): for a person whose first trip is a non-bike vehicle-appearing
or border-entering trip with goal park-near `b`, followed by a
use-parked-car-at-`b` trip, `get_vehicles` produces exactly one car, records
NOTHING in the initially-parked-at output (the parked-at-`b` binding is
established by trip 1 itself, not by initial state), and assigns the second
trip the same vehicle index 0 as the first. -/
theorem get_vehicles_park_then_use (pid : Nat) (oid : Nat × Nat)
    (d1 d2 b i : Nat) (pos : Position) (goal2 : DrivingGoal) (rng : Rng)
    (t1 : SpawnTrip)
    (h : t1 = .VehicleAppearing pos (.ParkNear b) false
       ∨ t1 = .FromBorder i (.ParkNear b) false) :
    (get_vehicles ⟨pid, oid, [⟨d1, t1⟩, ⟨d2, .UsingParkedCar b goal2⟩]⟩
        rng).vehicle_specs.length = 1
    ∧ (get_vehicles ⟨pid, oid, [⟨d1, t1⟩, ⟨d2, .UsingParkedCar b goal2⟩]⟩
        rng).cars_initially_parked_at = []
    ∧ (get_vehicles ⟨pid, oid, [⟨d1, t1⟩, ⟨d2, .UsingParkedCar b goal2⟩]⟩
        rng).vehicle_foreach_trip = [some 0, some 0] := by
  have hfind : (([((0 : Nat), some b)] : List (Nat × Option Nat)).find?
      fun x => x.2 == some b) = some (0, some b) := by
    rw [List.find?_cons_of_pos]
    simp
  rcases h with rfl | rfl
  · have e : get_vehicles
        ⟨pid, oid, [⟨d1, .VehicleAppearing pos (.ParkNear b) false⟩,
          ⟨d2, .UsingParkedCar b goal2⟩]⟩ rng
        = gvParkedCar ⟨[(rand_car rng).1], [], [some 0], none, [(0, some b)],
            (rand_car rng).2⟩ b goal2 := rfl
    rw [e, gvParkedCar_reuse _ b goal2 (0, some b) hfind]
    exact ⟨rfl, rfl, rfl⟩
  · have e : get_vehicles
        ⟨pid, oid, [⟨d1, .FromBorder i (.ParkNear b) false⟩,
          ⟨d2, .UsingParkedCar b goal2⟩]⟩ rng
        = gvParkedCar ⟨[(rand_car rng).1], [], [some 0], none, [(0, some b)],
            (rand_car rng).2⟩ b goal2 := rfl
    rw [e, gvParkedCar_reuse _ b goal2 (0, some b) hfind]
    exact ⟨rfl, rfl, rfl⟩

/-- Witness for the amended C5 theorem at concrete data. -/
theorem get_vehicles_park_then_use_witness :
    (get_vehicles cPersonParkThenUse ⟨0⟩).vehicle_specs.length = 1
    ∧ (get_vehicles cPersonParkThenUse ⟨0⟩).cars_initially_parked_at = []
    ∧ (get_vehicles cPersonParkThenUse ⟨0⟩).vehicle_foreach_trip
      = [some 0, some 0] :=
  get_vehicles_park_then_use 0 (0, 0) 0 1 5 0 ⟨0, 0⟩ (.Border 7 0) ⟨0⟩ _
    (Or.inl rfl)

/-- Embeds `ParkingSpot`: on-street on a lane, or off-street at a building. -/
inductive ParkingSpot
  | Onstreet (lane : Nat) (idx : Nat)
  | Offstreet (bldg : Nat) (idx : Nat)
deriving DecidableEq

/-- The free-spot inventory grouped by owning road (`open_spots_per_road`); a
road absent from the `BTreeMap` is modelled as an empty pool, which the BFS
treats identically. -/
abbrev SpotsMap := Nat → List ParkingSpot

/-- Embeds the road a spot belongs to, as the grouping pass of
`seed_parked_cars` computes it: on-street spots via their lane's parent road,
off-street spots via the building's connecting sidewalk's parent road. -/
def spotRoad (m : MapM) : ParkingSpot → Nat
  | .Onstreet l _ => m.lane_parent l
  | .Offstreet b _ => m.lane_parent (m.bldg_sidewalk b)

/-- Embeds the neighbour-enqueueing inner loop of `find_spot_near_building`:
push each not-yet-visited adjacent road onto the back of the queue, marking it
visited as it is pushed. -/
def enqueueNext : List Nat → List Nat → List Nat → List Nat × List Nat
  | [], queue, visited => (queue, visited)
  | n :: ns, queue, visited =>
    if n ∈ visited then enqueueNext ns queue visited
    else enqueueNext ns (queue ++ [n]) (n :: visited)

/-- Embeds the BFS loop of `find_spot_near_building`.  `Vec::pop` takes the
LAST element of the road's pre-shuffled pool (`getLast`), and the source's
unbounded `loop` (which terminates because the road set is finite) is given
explicit fuel; the theorems below hold for every fuel.  On success the spot
and the updated inventory are returned. -/
def find_spot_aux (m : MapM) (g : SpotsMap) :
    Nat → List Nat → List Nat → Option (ParkingSpot × SpotsMap)
  | 0, _, _ => none
  | _ + 1, [], _ => none
  | fuel + 1, r :: rest, visited =>
    if h : g r = [] then
      find_spot_aux m g fuel (enqueueNext (m.get_next_roads r) rest visited).1
        (enqueueNext (m.get_next_roads r) rest visited).2
    else
      some ((g r).getLast h, fun r2 => if r2 = r then (g r).dropLast else g r2)

/-- Embeds `find_spot_near_building`: BFS over road adjacency starting from
the building's connecting road. -/
def find_spot_near_building (m : MapM) (g : SpotsMap) (b : Nat) (fuel : Nat) :
    Option (ParkingSpot × SpotsMap) :=
  find_spot_aux m g fuel [m.building_to_road b] [m.building_to_road b]

/-- `reachN m s n r` holds when there is a length-`n` walk from road `s` to
road `r` in the road adjacency graph. -/
def reachN (m : MapM) (s : Nat) : Nat → Nat → Prop
  | 0, r => r = s
  | n + 1, r => ∃ p, reachN m s n p ∧ r ∈ m.get_next_roads p

/-- `d` is the hop-count distance from `s` to `r`: some length-`d` walk
reaches `r`, and no shorter walk does. -/
def isMinDist (m : MapM) (s r d : Nat) : Prop :=
  reachN m s d r ∧ ∀ k, reachN m s k r → d ≤ k

lemma isMinDist_le {m : MapM} {s r d k : Nat} (h : isMinDist m s r d)
    (hk : reachN m s k r) : d ≤ k :=
  h.2 k hk

lemma exists_isMinDist (m : MapM) (s r : Nat) :
    ∀ k, reachN m s k r → ∃ d, isMinDist m s r d := by
  intro k
  induction k using Nat.strong_induction_on with
  | _ k ih =>
    intro h
    by_cases hex : ∃ j, j < k ∧ reachN m s j r
    · obtain ⟨j, hj, hr⟩ := hex
      exact ih j hj hr
    · exact ⟨k, h, fun k2 hk2 => not_lt.mp fun hlt => hex ⟨k2, hlt, hk2⟩⟩

/-- Outcome record of the `seed_parked_cars` loop: the (vehicle, spot) pairs
bound in the engine, the number of capacity warnings logged, and the number of
loop iterations (`timer.next()` calls). -/
structure SeedOutcome (V : Type) where
  seeded : List (V × ParkingSpot)
  warnings : Nat
  iterations : Nat
deriving DecidableEq

/-- Embeds the allocation loop of `seed_parked_cars` (lines after the per-road
shuffle setup): iterate every pair; while `ok` holds, try to allocate; once a
pair fails, log one warning, flip `ok`, and from then on only the iteration
counter advances. -/
def seed_parked_cars_loop {V : Type} (m : MapM) (fuel : Nat) :
    List (V × Nat) → SpotsMap → Bool → SeedOutcome V
  | [], _, _ => ⟨[], 0, 0⟩
  | (v, b) :: rest, g, ok =>
    if ok then
      match find_spot_near_building m g b fuel with
      | some (spot, g2) =>
        let res := seed_parked_cars_loop m fuel rest g2 true
        ⟨(v, spot) :: res.seeded, res.warnings, res.iterations + 1⟩
      | none =>
        let res := seed_parked_cars_loop m fuel rest g false
        ⟨res.seeded, res.warnings + 1, res.iterations + 1⟩
    else
      let res := seed_parked_cars_loop m fuel rest g false
      ⟨res.seeded, res.warnings, res.iterations + 1⟩

/-- Reference allocator used to state claim C3: allocate pair after pair,
stopping dead at the first failure; returns the successfully allocated prefix
and whether a failure occurred. -/
def allocUntilFailure {V : Type} (m : MapM) (fuel : Nat) :
    List (V × Nat) → SpotsMap → List (V × ParkingSpot) × Bool
  | [], _ => ([], false)
  | (v, b) :: rest, g =>
    match find_spot_near_building m g b fuel with
    | some (spot, g2) =>
      let res := allocUntilFailure m fuel rest g2
      ((v, spot) :: res.1, res.2)
    | none => ([], true)

lemma seed_parked_cars_loop_dead {V : Type} (m : MapM) (fuel : Nat) :
    ∀ (pairs : List (V × Nat)) (g : SpotsMap),
      seed_parked_cars_loop m fuel pairs g false = ⟨[], 0, pairs.length⟩
  | [], _ => rfl
  | (v, b) :: rest, g => by
    simp only [seed_parked_cars_loop, if_neg (Bool.false_ne_true)]
    rw [seed_parked_cars_loop_dead m fuel rest g]
    rfl

lemma seed_loop_cons_some {V : Type} (m : MapM) (fuel : Nat) (v : V) (b : Nat)
    (rest : List (V × Nat)) (g g2 : SpotsMap) (spot : ParkingSpot)
    (hf : find_spot_near_building m g b fuel = some (spot, g2)) :
    seed_parked_cars_loop m fuel ((v, b) :: rest) g true =
      ⟨(v, spot) :: (seed_parked_cars_loop m fuel rest g2 true).seeded,
       (seed_parked_cars_loop m fuel rest g2 true).warnings,
       (seed_parked_cars_loop m fuel rest g2 true).iterations + 1⟩ := by
  simp only [seed_parked_cars_loop, if_true, hf]

lemma seed_loop_cons_none {V : Type} (m : MapM) (fuel : Nat) (v : V) (b : Nat)
    (rest : List (V × Nat)) (g : SpotsMap)
    (hf : find_spot_near_building m g b fuel = none) :
    seed_parked_cars_loop m fuel ((v, b) :: rest) g true =
      ⟨(seed_parked_cars_loop m fuel rest g false).seeded,
       (seed_parked_cars_loop m fuel rest g false).warnings + 1,
       (seed_parked_cars_loop m fuel rest g false).iterations + 1⟩ := by
  simp only [seed_parked_cars_loop, if_true, hf]

lemma alloc_cons_some {V : Type} (m : MapM) (fuel : Nat) (v : V) (b : Nat)
    (rest : List (V × Nat)) (g g2 : SpotsMap) (spot : ParkingSpot)
    (hf : find_spot_near_building m g b fuel = some (spot, g2)) :
    allocUntilFailure m fuel ((v, b) :: rest) g =
      ((v, spot) :: (allocUntilFailure m fuel rest g2).1,
       (allocUntilFailure m fuel rest g2).2) := by
  simp only [allocUntilFailure, hf]

lemma alloc_cons_none {V : Type} (m : MapM) (fuel : Nat) (v : V) (b : Nat)
    (rest : List (V × Nat)) (g : SpotsMap)
    (hf : find_spot_near_building m g b fuel = none) :
    allocUntilFailure m fuel ((v, b) :: rest) g = ([], true) := by
  simp only [allocUntilFailure, hf]

/-- C3: in the `seed_parked_cars` loop, the first pair for which no free spot
is found halts all further allocation attempts — the seeded pairs are exactly
the prefix allocated before the first failure, exactly one warning is logged
when (and only when) a failure occurred, and the loop still iterates over
every pair of the batch. -/
theorem seed_parked_cars_first_failure {V : Type} (m : MapM) (fuel : Nat) :
    ∀ (pairs : List (V × Nat)) (g : SpotsMap),
      seed_parked_cars_loop m fuel pairs g true =
        ⟨(allocUntilFailure m fuel pairs g).1,
         if (allocUntilFailure m fuel pairs g).2 then 1 else 0,
         pairs.length⟩
  | [], g => rfl
  | (v, b) :: rest, g => by
    cases hf : find_spot_near_building m g b fuel with
    | some pr =>
      obtain ⟨spot, g2⟩ := pr
      rw [seed_loop_cons_some m fuel v b rest g g2 spot hf,
        alloc_cons_some m fuel v b rest g g2 spot hf,
        seed_parked_cars_first_failure m fuel rest g2]
      rfl
    | none =>
      rw [seed_loop_cons_none m fuel v b rest g hf,
        alloc_cons_none m fuel v b rest g hf,
        seed_parked_cars_loop_dead m fuel rest g]
      rfl

lemma enqueueNext_spec :
    ∀ (ns queue visited : List Nat),
      ∃ l, (enqueueNext ns queue visited).1 = queue ++ l
        ∧ (∀ x, x ∈ (enqueueNext ns queue visited).2 ↔ x ∈ visited ∨ x ∈ ns)
        ∧ (∀ x ∈ l, x ∈ ns ∧ x ∉ visited)
        ∧ l.Nodup
        ∧ (∀ x ∈ ns, x ∉ visited → x ∈ queue ++ l)
  | [], q, v => by
    refine ⟨[], by simp [enqueueNext], ?_, by simp, List.nodup_nil, by simp⟩
    intro x
    simp [enqueueNext]
  | n :: ns, q, v => by
    by_cases hn : n ∈ v
    · obtain ⟨l, h1, h2, h3, h4, h5⟩ := enqueueNext_spec ns q v
      have he : enqueueNext (n :: ns) q v = enqueueNext ns q v := by
        simp only [enqueueNext, if_pos hn]
      rw [he]
      refine ⟨l, h1, ?_, ?_, h4, ?_⟩
      · intro x
        rw [h2 x]
        constructor
        · rintro (hx | hx)
          · exact Or.inl hx
          · exact Or.inr (List.mem_cons_of_mem n hx)
        · rintro (hx | hx)
          · exact Or.inl hx
          · rcases List.mem_cons.mp hx with rfl | hx
            · exact Or.inl hn
            · exact Or.inr hx
      · intro x hx
        obtain ⟨hx1, hx2⟩ := h3 x hx
        exact ⟨List.mem_cons_of_mem n hx1, hx2⟩
      · intro x hx hxv
        rcases List.mem_cons.mp hx with rfl | hx
        · exact absurd hn hxv
        · exact h5 x hx hxv
    · obtain ⟨l, h1, h2, h3, h4, h5⟩ := enqueueNext_spec ns (q ++ [n]) (n :: v)
      have he : enqueueNext (n :: ns) q v = enqueueNext ns (q ++ [n]) (n :: v) := by
        simp only [enqueueNext, if_neg hn]
      rw [he]
      refine ⟨n :: l, ?_, ?_, ?_, ?_, ?_⟩
      · rw [h1, List.append_assoc]
        rfl
      · intro x
        rw [h2 x]
        constructor
        · rintro (hx | hx)
          · rcases List.mem_cons.mp hx with rfl | hx
            · exact Or.inr (List.mem_cons_self _ _)
            · exact Or.inl hx
          · exact Or.inr (List.mem_cons_of_mem n hx)
        · rintro (hx | hx)
          · exact Or.inl (List.mem_cons_of_mem n hx)
          · rcases List.mem_cons.mp hx with rfl | hx
            · exact Or.inl (List.mem_cons_self _ _)
            · exact Or.inr hx
      · intro x hx
        rcases List.mem_cons.mp hx with rfl | hx
        · exact ⟨List.mem_cons_self _ _, hn⟩
        · obtain ⟨hx1, hx2⟩ := h3 x hx
          refine ⟨List.mem_cons_of_mem n hx1, fun hxv => hx2 (List.mem_cons_of_mem n hxv)⟩
      · refine List.nodup_cons.mpr ⟨fun hnl => ?_, h4⟩
        exact (h3 n hnl).2 (List.mem_cons_self n v)
      · intro x hx hxv
        rcases List.mem_cons.mp hx with rfl | hx
        · exact List.mem_append.mpr (Or.inr (List.mem_cons_self _ _))
        · by_cases hxn : x ∈ n :: v
          · rcases List.mem_cons.mp hxn with rfl | hxv2
            · exact List.mem_append.mpr (Or.inr (List.mem_cons_self _ _))
            · exact absurd hxv2 hxv
          · have hq := h5 x hx hxn
            rw [List.append_assoc] at hq
            exact hq

lemma find_spot_aux_minimal (m : MapM) (g : SpotsMap) (s : Nat) :
    ∀ (fuel : Nat) (q1 q2 visited : List Nat) (d : Nat) (spot : ParkingSpot)
      (g2 : SpotsMap),
      (∀ r ∈ q1, isMinDist m s r d) →
      (∀ r ∈ q2, isMinDist m s r (d + 1)) →
      (∀ r k, reachN m s k r → k ≤ d → r ∈ visited) →
      (∀ r ∈ visited, r ∉ q1 ++ q2 →
        (∀ n ∈ m.get_next_roads r, n ∈ visited) ∧ g r = []) →
      (q1 ++ q2).Nodup →
      (∀ r ∈ q1 ++ q2, r ∈ visited) →
      find_spot_aux m g fuel (q1 ++ q2) visited = some (spot, g2) →
      ∃ r e, spot ∈ g r ∧ reachN m s e r ∧
        ∀ k r2, reachN m s k r2 → g r2 ≠ [] → e ≤ k
  | 0, q1, q2, visited, d, spot, g2 => by
    intro _ _ _ _ _ _ hfind
    simp [find_spot_aux] at hfind
  | fuel + 1, q1, q2, visited, d, spot, g2 => by
    intro hq1 hq2 hball hpop hnd hqv hfind
    cases q1 with
    | nil =>
      cases q2 with
      | nil => simp [find_spot_aux] at hfind
      | cons r q2t =>
        simp only [List.nil_append] at hfind hpop hnd hqv
        have hball1 : ∀ x k, reachN m s k x → k ≤ d + 1 → x ∈ visited := by
          intro x k hreach hk
          rcases Nat.lt_or_ge k (d + 1) with hlt | hge
          · exact hball x k hreach (Nat.lt_succ_iff.mp hlt)
          · have hk1 : k = d + 1 := le_antisymm hk hge
            subst hk1
            obtain ⟨p, hp, hnp⟩ := hreach
            have hpv : p ∈ visited := hball p d hp (le_refl d)
            have hpq : p ∉ r :: q2t := by
              intro hmem
              have := isMinDist_le (hq2 p hmem) hp
              omega
            exact (hpop p hpv hpq).1 x hnp
        by_cases hg : g r = []
        · simp only [find_spot_aux, dif_pos hg] at hfind
          obtain ⟨l, e1, e2, e3, e4, e5⟩ :=
            enqueueNext_spec (m.get_next_roads r) q2t visited
          rw [e1] at hfind
          have hq2r := hq2 r (List.mem_cons_self r q2t)
          refine find_spot_aux_minimal m g s fuel q2t l _ (d + 1) spot g2
            (fun x hx => hq2 x (List.mem_cons_of_mem r hx)) ?_ ?_ ?_ ?_ ?_ hfind
          · intro x hx
            obtain ⟨hx1, hx2⟩ := e3 x hx
            refine ⟨⟨r, hq2r.1, hx1⟩, fun k hk => ?_⟩
            by_contra hlt
            push_neg at hlt
            exact hx2 (hball1 x k hk (by omega))
          · intro x k hreach hk
            exact (e2 x).mpr (Or.inl (hball1 x k hreach hk))
          · intro x hxv hxq
            rw [e2 x] at hxv
            by_cases hxv2 : x ∈ visited
            · by_cases hxr : x = r
              · subst hxr
                exact ⟨fun n hn => (e2 n).mpr (Or.inr hn), hg⟩
              · have hxq2 : x ∉ r :: q2t := by
                  intro hmem
                  rcases List.mem_cons.mp hmem with h' | h'
                  · exact hxr h'
                  · exact hxq (List.mem_append.mpr (Or.inl h'))
                obtain ⟨ha, hb⟩ := hpop x hxv2 hxq2
                exact ⟨fun n hn => (e2 n).mpr (Or.inl (ha n hn)), hb⟩
            · have hxn := hxv.resolve_left hxv2
              exact absurd (e5 x hxn hxv2) hxq
          · rcases List.nodup_cons.mp hnd with ⟨hrq, hndq⟩
            refine List.Nodup.append hndq e4 ?_
            intro a ha hal
            exact (e3 a hal).2 (hqv a (List.mem_cons_of_mem r ha))
          · intro x hx
            rcases List.mem_append.mp hx with hx | hx
            · exact (e2 x).mpr (Or.inl (hqv x (List.mem_cons_of_mem r hx)))
            · exact (e2 x).mpr (Or.inr (e3 x hx).1)
        · simp only [find_spot_aux, dif_neg hg] at hfind
          injection hfind with hfind
          have hsp : (g r).getLast hg = spot := congrArg Prod.fst hfind
          refine ⟨r, d + 1, ?_, (hq2 r (List.mem_cons_self r q2t)).1, ?_⟩
          · rw [← hsp]
            exact List.getLast_mem hg
          · intro k r2 hreach hne
            by_contra hlt
            push_neg at hlt
            have hr2v : r2 ∈ visited := hball r2 k hreach (by omega)
            have hr2q : r2 ∉ r :: q2t := by
              intro hmem
              have := isMinDist_le (hq2 r2 hmem) hreach
              omega
            exact hne (hpop r2 hr2v hr2q).2
    | cons r q1t =>
      have hq1r := hq1 r (List.mem_cons_self r q1t)
      simp only [List.cons_append] at hfind hpop hnd hqv
      by_cases hg : g r = []
      · simp only [find_spot_aux, dif_pos hg] at hfind
        obtain ⟨l, e1, e2, e3, e4, e5⟩ :=
          enqueueNext_spec (m.get_next_roads r) (q1t ++ q2) visited
        rw [e1, List.append_assoc] at hfind
        refine find_spot_aux_minimal m g s fuel q1t (q2 ++ l) _ d spot g2
          (fun x hx => hq1 x (List.mem_cons_of_mem r hx)) ?_ ?_ ?_ ?_ ?_ hfind
        · intro x hx
          rcases List.mem_append.mp hx with hx | hx
          · exact hq2 x hx
          · obtain ⟨hx1, hx2⟩ := e3 x hx
            refine ⟨⟨r, hq1r.1, hx1⟩, fun k hk => ?_⟩
            by_contra hlt
            push_neg at hlt
            exact hx2 (hball x k hk (by omega))
        · intro x k hreach hk
          exact (e2 x).mpr (Or.inl (hball x k hreach hk))
        · intro x hxv hxq
          rw [e2 x] at hxv
          by_cases hxv2 : x ∈ visited
          · by_cases hxr : x = r
            · subst hxr
              exact ⟨fun n hn => (e2 n).mpr (Or.inr hn), hg⟩
            · have hxq2 : x ∉ r :: (q1t ++ q2) := by
                intro hmem
                rcases List.mem_cons.mp hmem with h' | h'
                · exact hxr h'
                · apply hxq
                  rcases List.mem_append.mp h' with h'' | h''
                  · exact List.mem_append.mpr (Or.inl h'')
                  · exact List.mem_append.mpr
                      (Or.inr (List.mem_append.mpr (Or.inl h'')))
              obtain ⟨ha, hb⟩ := hpop x hxv2 hxq2
              exact ⟨fun n hn => (e2 n).mpr (Or.inl (ha n hn)), hb⟩
          · have hxn := hxv.resolve_left hxv2
            have hmem := e5 x hxn hxv2
            rw [List.append_assoc] at hmem
            exact absurd hmem hxq
        · rcases List.nodup_cons.mp hnd with ⟨hrq, hndq⟩
          rw [← List.append_assoc]
          refine List.Nodup.append hndq e4 ?_
          intro a ha hal
          exact (e3 a hal).2 (hqv a (List.mem_cons_of_mem r ha))
        · intro x hx
          rcases List.mem_append.mp hx with hx | hx
          · exact (e2 x).mpr
              (Or.inl (hqv x (List.mem_cons_of_mem r (List.mem_append.mpr (Or.inl hx)))))
          · rcases List.mem_append.mp hx with hx | hx
            · exact (e2 x).mpr
                (Or.inl (hqv x (List.mem_cons_of_mem r (List.mem_append.mpr (Or.inr hx)))))
            · exact (e2 x).mpr (Or.inr (e3 x hx).1)
      · simp only [find_spot_aux, dif_neg hg] at hfind
        injection hfind with hfind
        have hsp : (g r).getLast hg = spot := congrArg Prod.fst hfind
        refine ⟨r, d, ?_, hq1r.1, ?_⟩
        · rw [← hsp]
          exact List.getLast_mem hg
        · intro k r2 hreach hne
          by_contra hlt
          push_neg at hlt
          have hr2v : r2 ∈ visited := hball r2 k hreach (by omega)
          have hr2q : r2 ∉ r :: (q1t ++ q2) := by
            intro hmem
            rcases List.mem_cons.mp hmem with h' | h'
            · subst h'
              have := isMinDist_le hq1r hreach
              omega
            · rcases List.mem_append.mp h' with h'' | h''
              · have := isMinDist_le (hq1 r2 (List.mem_cons_of_mem r h'')) hreach
                omega
              · have := isMinDist_le (hq2 r2 h'') hreach
                omega
          exact hne (hpop r2 hr2v hr2q).2

/-- C1: whenever `find_spot_near_building` returns a spot, that spot comes
from a road whose hop-count distance (in the road adjacency graph, starting
from the building's connecting road) is minimal among all roads with a
non-empty free-spot pool. -/
theorem find_spot_near_building_minimal (m : MapM) (g : SpotsMap) (b fuel : Nat)
    (spot : ParkingSpot) (g2 : SpotsMap)
    (h : find_spot_near_building m g b fuel = some (spot, g2)) :
    ∃ r d, spot ∈ g r ∧ reachN m (m.building_to_road b) d r ∧
      ∀ k r2, reachN m (m.building_to_road b) k r2 → g r2 ≠ [] → d ≤ k := by
  refine find_spot_aux_minimal m g (m.building_to_road b) fuel
    [m.building_to_road b] [] [m.building_to_road b] 0 spot g2 ?_ ?_ ?_ ?_ ?_ ?_ h
  · intro r hr
    rcases List.mem_singleton.mp hr with rfl
    exact ⟨rfl, fun k _ => Nat.zero_le k⟩
  · intro r hr
    simp at hr
  · intro r k hr hk
    rcases Nat.le_zero.mp hk with rfl
    rcases hr with rfl
    exact List.mem_singleton.mpr rfl
  · intro r hr hnot
    exact absurd hr (by simpa using hnot)
  · simp
  · simp

/-- A path-shaped road graph A–B–C (roads 0–1–2), with the building 0 on
road A. -/
def cMapPath : MapM :=
  { building_to_road := fun _ => 0,
    get_next_roads := fun r =>
      if r = 0 then [1] else if r = 1 then [0, 2] else if r = 2 then [1] else [],
    lane_src_i := fun _ => 0,
    lane_parent := fun l => l,
    bldg_sidewalk := fun _ => 0,
    outgoing_lanes := fun _ _ => [],
    spawn_vehicle_at := fun _ _ => none,
    all_roads := [0, 1, 2],
    bus_routes := [] }

/-- Free-spot inventory for the A–B–C scenario: road A has no free spot,
road B has one, road C has two. -/
def cSpotsABC : SpotsMap := fun r =>
  if r = 1 then [ParkingSpot.Onstreet 10 0]
  else if r = 2 then [ParkingSpot.Onstreet 20 0, ParkingSpot.Onstreet 20 1]
  else []

/-- Witness for C1: on the A–B–C path graph with 0/1/2 free spots and the
building on A's road, the BFS returns the spot on B (distance 1), never one
of C's two spots, and that road is distance-minimal among non-empty roads. -/
theorem find_spot_near_building_minimal_witness :
    ∃ g2, find_spot_near_building cMapPath cSpotsABC 0 10
        = some (ParkingSpot.Onstreet 10 0, g2)
      ∧ ∃ r d, ParkingSpot.Onstreet 10 0 ∈ cSpotsABC r
          ∧ reachN cMapPath (cMapPath.building_to_road 0) d r
          ∧ ∀ k r2, reachN cMapPath (cMapPath.building_to_road 0) k r2 →
              cSpotsABC r2 ≠ [] → d ≤ k :=
  ⟨_, rfl, find_spot_near_building_minimal cMapPath cSpotsABC 0 10 _ _ rfl⟩

/-- C8: forking is a pure function of the parent's state — forking two equal
states yields children with identical output sequences — and forking does not
change the parent's subsequent outputs (the parent returned by `fork_rng`
produces exactly what the unforked generator would).  `fork_rng` is modelled
from the spec, since `abstutil::fork_rng` is outside `src/`. -/
theorem fork_rng_pure_and_parent_unchanged (r1 r2 : Rng) (k : Nat) :
    (r1 = r2 → rngOutputs (fork_rng r1).1 k = rngOutputs (fork_rng r2).1 k)
    ∧ rngOutputs (fork_rng r1).2 k = rngOutputs r1 k :=
  ⟨fun h => by rw [h], rfl⟩

/-- Witness for C8 at concrete states. -/
theorem fork_rng_pure_and_parent_unchanged_witness :
    rngOutputs (fork_rng ⟨7⟩).1 3 = rngOutputs (fork_rng ⟨7⟩).1 3
    ∧ rngOutputs (fork_rng ⟨7⟩).2 3 = rngOutputs ⟨7⟩ 3 :=
  ⟨(fork_rng_pure_and_parent_unchanged ⟨7⟩ ⟨7⟩ 3).1 rfl,
   (fork_rng_pure_and_parent_unchanged ⟨7⟩ ⟨7⟩ 3).2⟩

/-- Embeds the `TripSpec` variants this module constructs. -/
inductive TripSpec
  | VehicleAppearing (start_pos : Position) (goal : DrivingGoal) (use_vehicle : Nat)
      (retry_if_no_room : Bool)
  | UsingParkedCar (start_bldg : Nat) (goal : DrivingGoal) (car : Nat)
  | UsingBike (bike : Nat) (start : SidewalkSpot) (goal : DrivingGoal)
  | JustWalking (start : SidewalkSpot) (goal : SidewalkSpot)
  | UsingTransit (start : SidewalkSpot) (goal : SidewalkSpot) (route : Nat)
      (stop1 : Nat) (stop2 : Nat)
deriving DecidableEq

/-- Embeds `SliceRandom::choose`: none on an empty slice, otherwise an element
picked with one draw from the generator. -/
def chooseLane (lanes : List Nat) (r : Rng) : Option Nat :=
  if h : lanes = [] then none
  else some (lanes.get ⟨(rngNext r).1 % lanes.length,
    Nat.mod_lt _ (List.length_pos.mpr h)⟩)

/-- Embeds `SpawnTrip::to_trip_spec`.  The `use_vehicle.unwrap()` panic is
modelled as `.error ()`, "no spec produced" as `.ok none`, and success as
`.ok (some spec)`.  Evaluation order follows the source: for `FromBorder` the
lane choice and the external `spawn_vehicle_at` run (each able to yield
`.ok none` via `?`) before `use_vehicle` is unwrapped. -/
def toTripSpec : SpawnTrip → Option Nat → Rng → MapM → Except Unit (Option TripSpec)
  | .VehicleAppearing start goal _, uv, _, _ =>
    (match uv with
     | none => .error ()
     | some v => .ok (some (.VehicleAppearing start goal v true)))
  | .FromBorder i goal is_bike, uv, rng, m =>
    (match chooseLane (m.outgoing_lanes i is_bike) rng with
     | none => .ok none
     | some l =>
       match m.spawn_vehicle_at ⟨l, 0⟩ is_bike with
       | none => .ok none
       | some pos =>
         match uv with
         | none => .error ()
         | some v => .ok (some (.VehicleAppearing pos goal v true)))
  | .UsingParkedCar b goal, uv, _, _ =>
    (match uv with
     | none => .error ()
     | some v => .ok (some (.UsingParkedCar b goal v)))
  | .UsingBike start goal, uv, _, _ =>
    (match uv with
     | none => .error ()
     | some v => .ok (some (.UsingBike v start goal)))
  | .JustWalking s g, _, _, _ => .ok (some (.JustWalking s g))
  | .UsingTransit s g route st1 st2, _, _, _ =>
    .ok (some (.UsingTransit s g route st1 st2))

/-- Follows the claim's classification of `SpawnTrip` variants: those that use
a vehicle (and must be paired with a vehicle index) versus walking/transit. -/
def usesVehicle : SpawnTrip → Bool
  | .VehicleAppearing _ _ _ => true
  | .FromBorder _ _ _ => true
  | .UsingParkedCar _ _ => true
  | .UsingBike _ _ => true
  | .JustWalking _ _ => false
  | .UsingTransit _ _ _ _ _ => false

/-- External randomness helpers consumed by `instantiate` (the `rand` crate's
`SliceRandom::shuffle`), modelled as oracles. -/
structure RandExt where
  shufflePairs : List ((Nat × Nat) × Nat) → Rng → (List ((Nat × Nat) × Nat) × Rng)
  shuffleSpots : List ParkingSpot → Rng → List ParkingSpot

/-- The observable effects of one `instantiate` run: seeded bus routes,
registered people (id and vehicle specs), the collected (vehicle, building)
parked pairs (vehicle identity modelled as (person id, vehicle index)),
the scheduled trips, the per-trip warnings, and the parking-seed outcome. -/
structure InstResult where
  seeded_routes : List String
  persons : List (Nat × List VehicleSpec)
  parked_pairs : List ((Nat × Nat) × Nat)
  scheduled : List (Nat × Nat × TripSpec)
  trip_warnings : Nat
  seed_outcome : SeedOutcome (Nat × Nat)

/-- Resolves a trip's vehicle index into `maybe_idx.map(|idx|
person.vehicles[idx].id)`: the out-of-range indexing panic is `.error ()`, and
a vehicle's id is modelled by its index. -/
def resolveVid (specs : List VehicleSpec) : Option Nat → Except Unit (Option Nat)
  | none => .ok none
  | some idx =>
    match specs.get? idx with
    | none => .error ()
    | some _ => .ok (some idx)

/-- The `parked_cars` collection loop of `instantiate`: for each `(idx, b)` of
`cars_initially_parked_at`, index into the person's vehicles (out-of-range
would panic) and push the (vehicle, building) pair. -/
def collectPairs (pid : Nat) (specs : List VehicleSpec) :
    List (Nat × Nat) → Except Unit (List ((Nat × Nat) × Nat))
  | [] => .ok []
  | (idx, b) :: rest =>
    match specs.get? idx with
    | none => .error ()
    | some _ =>
      match collectPairs pid specs rest with
      | .error e => .error e
      | .ok tail => .ok (((pid, idx), b) :: tail)

/-- The per-person trips loop of `instantiate`: per trip, fork a temporary
generator (the spec-modelled fork leaves the base generator unchanged),
resolve the vehicle id, then schedule the resolved spec or log one warning. -/
def tripsLoop (m : MapM) (pid : Nat) (specs : List VehicleSpec) (rng : Rng) :
    List (IndividTrip × Option Nat) →
      Except Unit (List (Nat × Nat × TripSpec) × Nat)
  | [] => .ok ([], 0)
  | (t, maybe_idx) :: rest =>
    match resolveVid specs maybe_idx with
    | .error e => .error e
    | .ok vid =>
      match toTripSpec t.trip vid (fork_rng rng).1 m with
      | .error e => .error e
      | .ok cur =>
        match tripsLoop m pid specs rng rest with
        | .error e => .error e
        | .ok (sched, warns) =>
          match cur with
          | none => .ok (sched, warns + 1)
          | some spec => .ok ((pid, t.depart, spec) :: sched, warns)

/-- The main per-person loop of `instantiate`: resolve vehicles, draw the
pedestrian speed, collect initially parked pairs, then resolve and schedule
each trip; people are processed in order and the generator is threaded
through. -/
def instPeople (m : MapM) :
    List PersonSpec → Rng →
      Except Unit (List (Nat × List VehicleSpec) × List ((Nat × Nat) × Nat)
        × List (Nat × Nat × TripSpec) × Nat × Rng)
  | [], rng => .ok ([], [], [], 0, rng)
  | p :: rest, rng =>
    let gv := get_vehicles p rng
    let rng1 := (rand_ped_speed gv.rng).2
    match collectPairs p.id gv.vehicle_specs gv.cars_initially_parked_at with
    | .error e => .error e
    | .ok pairs =>
      match tripsLoop m p.id gv.vehicle_specs rng1
          (p.trips.zip gv.vehicle_foreach_trip) with
      | .error e => .error e
      | .ok (sched, warns) =>
        match instPeople m rest rng1 with
        | .error e => .error e
        | .ok (persons, pairs2, sched2, warns2, rng2) =>
          .ok ((p.id, gv.vehicle_specs) :: persons, pairs ++ pairs2,
            sched ++ sched2, warns + warns2, rng2)

/-- The per-road shuffle setup of `seed_parked_cars`: walk all roads, fork the
generator once per road, and shuffle the road's pool (when present) via the
external shuffle on the forked generator. -/
def perRoadShuffle (ext : RandExt) (g : SpotsMap) (rng : Rng) : List Nat → SpotsMap
  | [] => g
  | r :: rest =>
    let tmp := (fork_rng rng).1
    let g2 : SpotsMap :=
      if g r = [] then g
      else fun r2 => if r2 = r then ext.shuffleSpots (g r) tmp else g r2
    perRoadShuffle ext g2 rng rest

/-- Embeds `seed_parked_cars` in full: group the engine's free spots by owning
road, shuffle each road's pool on an independently forked generator, then run
the allocation loop. -/
def seed_parked_cars (m : MapM) (ext : RandExt) (fuel : Nat)
    (parked_cars : List ((Nat × Nat) × Nat)) (free_spots : List ParkingSpot)
    (rng : Rng) : SeedOutcome (Nat × Nat) :=
  let g0 : SpotsMap := fun r => free_spots.filter fun sp => spotRoad m sp == r
  let g1 := perRoadShuffle ext g0 rng m.all_roads
  seed_parked_cars_loop m fuel parked_cars g1 true

/-- Embeds `Scenario::instantiate`: seed bus routes (filtered by
`only_seed_buses`), process every person (resolving vehicles and trips),
shuffle the collected parked pairs with the base generator, and seed parked
cars.  The panics modelled inside propagate as `.error`. -/
def instantiate (s : ScenarioSpec) (m : MapM) (ext : RandExt)
    (free_spots : List ParkingSpot) (rng : Rng) (fuel : Nat) :
    Except Unit InstResult :=
  let seeded_routes := match s.only_seed_buses with
    | none => m.bus_routes
    | some rs => m.bus_routes.filter fun route => rs.contains route
  match instPeople m s.people rng with
  | .error e => .error e
  | .ok (persons, pairs, sched, warns, rng2) =>
    let (shuffled, rng3) := ext.shufflePairs pairs rng2
    .ok ⟨seeded_routes, persons, pairs, sched, warns,
      seed_parked_cars m ext fuel shuffled free_spots rng3⟩

/-- Embeds the loop of `Scenario::count_parked_cars_per_bldg`: run
`get_vehicles` for each person on the threaded generator and concatenate the
initially-parked (index, building) pairs. -/
def countPeople : List PersonSpec → Rng → List (Nat × Nat)
  | [], _ => []
  | p :: rest, rng =>
    let gv := get_vehicles p rng
    gv.cars_initially_parked_at ++ countPeople rest gv.rng

/-- Embeds `Scenario::count_parked_cars_per_bldg` as the per-building counter:
uses the fixed dummy seed, as the source does. -/
def count_parked_cars_per_bldg (s : ScenarioSpec) (b : Nat) : Nat :=
  ((countPeople s.people ⟨0⟩).filter fun pr => pr.2 == b).length

/-- Well-formedness of a `get_vehicles` loop state: every vehicle index it
records (initially-parked pairs, per-trip choices, bike index, car-location
bindings) is in range of the vehicle list. -/
def GvWF (st : GvState) : Prop :=
  (∀ pr ∈ st.cars_initially_parked_at, pr.1 < st.vehicle_specs.length)
  ∧ (∀ o ∈ st.vehicle_foreach_trip, ∀ j, o = some j → j < st.vehicle_specs.length)
  ∧ (∀ j, st.bike_idx = some j → j < st.vehicle_specs.length)
  ∧ (∀ pr ∈ st.car_locations, pr.1 < st.vehicle_specs.length)

lemma gvBike_wf (st : GvState) (h : GvWF st) :
    ∃ j, (gvBike st).vehicle_foreach_trip = st.vehicle_foreach_trip ++ [some j]
      ∧ GvWF (gvBike st) := by
  obtain ⟨h1, h2, h3, h4⟩ := h
  cases hb : st.bike_idx with
  | some i =>
    have e : gvBike st =
        { st with vehicle_foreach_trip := st.vehicle_foreach_trip ++ [some i] } := by
      simp only [gvBike, hb]
    refine ⟨i, by rw [e], ?_, ?_, ?_, ?_⟩
    · rw [e]; exact h1
    · rw [e]
      intro o ho j hj
      rcases List.mem_append.mp ho with ho | ho
      · exact h2 o ho j hj
      · rcases List.mem_singleton.mp ho with rfl
        rw [← Option.some.inj hj]
        exact h3 i hb
    · rw [e]; exact h3
    · rw [e]; exact h4
  | none =>
    have e : gvBike st = { st with
        vehicle_specs := st.vehicle_specs ++ [(rand_bike st.rng).1],
        bike_idx := some st.vehicle_specs.length,
        rng := (rand_bike st.rng).2,
        vehicle_foreach_trip :=
          st.vehicle_foreach_trip ++ [some st.vehicle_specs.length] } := by
      simp only [gvBike, hb]
    have hle : st.vehicle_specs.length
        < (st.vehicle_specs ++ [(rand_bike st.rng).1]).length := by simp
    refine ⟨st.vehicle_specs.length, by rw [e], ?_, ?_, ?_, ?_⟩
    · rw [e]; intro pr hpr; exact lt_trans (h1 pr hpr) hle
    · rw [e]
      intro o ho j hj
      rcases List.mem_append.mp ho with ho | ho
      · exact lt_trans (h2 o ho j hj) hle
      · rcases List.mem_singleton.mp ho with rfl
        rw [← Option.some.inj hj]
        exact hle
    · rw [e]
      intro j hj
      rw [← Option.some.inj hj]
      exact hle
    · rw [e]; intro pr hpr; exact lt_trans (h4 pr hpr) hle

lemma gvCarTrip_wf (st : GvState) (goal : DrivingGoal) (h : GvWF st) :
    ∃ j, (gvCarTrip st goal).vehicle_foreach_trip
        = st.vehicle_foreach_trip ++ [some j]
      ∧ GvWF (gvCarTrip st goal) := by
  obtain ⟨h1, h2, h3, h4⟩ := h
  cases hf : st.car_locations.find? (fun pr => pr.2.isNone) with
  | some pr =>
    have hlt := h4 pr (List.mem_of_find?_eq_some hf)
    have e : gvCarTrip st goal = { st with
        car_locations :=
          (st.car_locations.filter fun x => pr.1 != x.1) ++ [(pr.1, goalLoc goal)],
        vehicle_foreach_trip := st.vehicle_foreach_trip ++ [some pr.1] } := by
      simp only [gvCarTrip, hf]
    refine ⟨pr.1, by rw [e], ?_, ?_, ?_, ?_⟩
    · rw [e]; exact h1
    · rw [e]
      intro o ho j hj
      rcases List.mem_append.mp ho with ho | ho
      · exact h2 o ho j hj
      · rcases List.mem_singleton.mp ho with rfl
        rw [← Option.some.inj hj]
        exact hlt
    · rw [e]; exact h3
    · rw [e]
      intro x hx
      rcases List.mem_append.mp hx with hx | hx
      · exact h4 x (List.mem_of_mem_filter hx)
      · rcases List.mem_singleton.mp hx with rfl
        exact hlt
  | none =>
    have e : gvCarTrip st goal = { st with
        vehicle_specs := st.vehicle_specs ++ [(rand_car st.rng).1],
        rng := (rand_car st.rng).2,
        car_locations :=
          (st.car_locations.filter fun x => st.vehicle_specs.length != x.1)
            ++ [(st.vehicle_specs.length, goalLoc goal)],
        vehicle_foreach_trip :=
          st.vehicle_foreach_trip ++ [some st.vehicle_specs.length] } := by
      simp only [gvCarTrip, hf]
    have hle : st.vehicle_specs.length
        < (st.vehicle_specs ++ [(rand_car st.rng).1]).length := by simp
    refine ⟨st.vehicle_specs.length, by rw [e], ?_, ?_, ?_, ?_⟩
    · rw [e]; intro x hx; exact lt_trans (h1 x hx) hle
    · rw [e]
      intro o ho j hj
      rcases List.mem_append.mp ho with ho | ho
      · exact lt_trans (h2 o ho j hj) hle
      · rcases List.mem_singleton.mp ho with rfl
        rw [← Option.some.inj hj]
        exact hle
    · rw [e]; intro j hj; exact lt_trans (h3 j hj) hle
    · rw [e]
      intro x hx
      rcases List.mem_append.mp hx with hx | hx
      · exact lt_trans (h4 x (List.mem_of_mem_filter hx)) hle
      · rcases List.mem_singleton.mp hx with rfl
        exact hle

lemma gvParkedCar_wf (st : GvState) (b : Nat) (goal : DrivingGoal) (h : GvWF st) :
    ∃ j, (gvParkedCar st b goal).vehicle_foreach_trip
        = st.vehicle_foreach_trip ++ [some j]
      ∧ GvWF (gvParkedCar st b goal) := by
  obtain ⟨h1, h2, h3, h4⟩ := h
  cases hf : st.car_locations.find? (fun pr => pr.2 == some b) with
  | some pr =>
    have hlt := h4 pr (List.mem_of_find?_eq_some hf)
    have e : gvParkedCar st b goal = { st with
        car_locations :=
          (st.car_locations.filter fun x => pr.1 != x.1) ++ [(pr.1, goalLoc goal)],
        vehicle_foreach_trip := st.vehicle_foreach_trip ++ [some pr.1] } := by
      simp only [gvParkedCar, hf]
    refine ⟨pr.1, by rw [e], ?_, ?_, ?_, ?_⟩
    · rw [e]; exact h1
    · rw [e]
      intro o ho j hj
      rcases List.mem_append.mp ho with ho | ho
      · exact h2 o ho j hj
      · rcases List.mem_singleton.mp ho with rfl
        rw [← Option.some.inj hj]
        exact hlt
    · rw [e]; exact h3
    · rw [e]
      intro x hx
      rcases List.mem_append.mp hx with hx | hx
      · exact h4 x (List.mem_of_mem_filter hx)
      · rcases List.mem_singleton.mp hx with rfl
        exact hlt
  | none =>
    have e : gvParkedCar st b goal = { st with
        vehicle_specs := st.vehicle_specs ++ [(rand_car st.rng).1],
        rng := (rand_car st.rng).2,
        cars_initially_parked_at :=
          st.cars_initially_parked_at ++ [(st.vehicle_specs.length, b)],
        car_locations :=
          (st.car_locations.filter fun x => st.vehicle_specs.length != x.1)
            ++ [(st.vehicle_specs.length, goalLoc goal)],
        vehicle_foreach_trip :=
          st.vehicle_foreach_trip ++ [some st.vehicle_specs.length] } := by
      simp only [gvParkedCar, hf]
    have hle : st.vehicle_specs.length
        < (st.vehicle_specs ++ [(rand_car st.rng).1]).length := by simp
    refine ⟨st.vehicle_specs.length, by rw [e], ?_, ?_, ?_, ?_⟩
    · rw [e]
      intro x hx
      rcases List.mem_append.mp hx with hx | hx
      · exact lt_trans (h1 x hx) hle
      · rcases List.mem_singleton.mp hx with rfl
        exact hle
    · rw [e]
      intro o ho j hj
      rcases List.mem_append.mp ho with ho | ho
      · exact lt_trans (h2 o ho j hj) hle
      · rcases List.mem_singleton.mp ho with rfl
        rw [← Option.some.inj hj]
        exact hle
    · rw [e]; intro j hj; exact lt_trans (h3 j hj) hle
    · rw [e]
      intro x hx
      rcases List.mem_append.mp hx with hx | hx
      · exact lt_trans (h4 x (List.mem_of_mem_filter hx)) hle
      · rcases List.mem_singleton.mp hx with rfl
        exact hle

lemma gvWalk_wf (st : GvState) (h : GvWF st) :
    (gvWalk st).vehicle_foreach_trip = st.vehicle_foreach_trip ++ [none]
      ∧ GvWF (gvWalk st) := by
  obtain ⟨h1, h2, h3, h4⟩ := h
  refine ⟨rfl, h1, ?_, h3, h4⟩
  intro o ho j hj
  rcases List.mem_append.mp ho with ho | ho
  · exact h2 o ho j hj
  · rcases List.mem_singleton.mp ho with rfl
    exact absurd hj (by simp)

lemma gvStep_wf (st : GvState) (t : IndividTrip) (h : GvWF st) :
    ∃ o, (gvStep st t).vehicle_foreach_trip = st.vehicle_foreach_trip ++ [o]
      ∧ o.isSome = usesVehicle t.trip
      ∧ GvWF (gvStep st t) := by
  cases ht : t.trip with
  | VehicleAppearing pos goal is_bike =>
    have e : gvStep st t = if is_bike then gvBike st else gvCarTrip st goal := by
      simp only [gvStep, ht]
    cases is_bike
    · obtain ⟨j, hj1, hj2⟩ := gvCarTrip_wf st goal h
      rw [e, if_neg (by simp)]
      exact ⟨some j, hj1, by simp [usesVehicle, ht], hj2⟩
    · obtain ⟨j, hj1, hj2⟩ := gvBike_wf st h
      rw [e, if_pos rfl]
      exact ⟨some j, hj1, by simp [usesVehicle, ht], hj2⟩
  | FromBorder i goal is_bike =>
    have e : gvStep st t = if is_bike then gvBike st else gvCarTrip st goal := by
      simp only [gvStep, ht]
    cases is_bike
    · obtain ⟨j, hj1, hj2⟩ := gvCarTrip_wf st goal h
      rw [e, if_neg (by simp)]
      exact ⟨some j, hj1, by simp [usesVehicle, ht], hj2⟩
    · obtain ⟨j, hj1, hj2⟩ := gvBike_wf st h
      rw [e, if_pos rfl]
      exact ⟨some j, hj1, by simp [usesVehicle, ht], hj2⟩
  | UsingParkedCar b goal =>
    have e : gvStep st t = gvParkedCar st b goal := by simp only [gvStep, ht]
    obtain ⟨j, hj1, hj2⟩ := gvParkedCar_wf st b goal h
    rw [e]
    exact ⟨some j, hj1, by simp [usesVehicle, ht], hj2⟩
  | UsingBike s goal =>
    have e : gvStep st t = gvBike st := by simp only [gvStep, ht]
    obtain ⟨j, hj1, hj2⟩ := gvBike_wf st h
    rw [e]
    exact ⟨some j, hj1, by simp [usesVehicle, ht], hj2⟩
  | JustWalking s g =>
    have e : gvStep st t = gvWalk st := by simp only [gvStep, ht]
    obtain ⟨hj1, hj2⟩ := gvWalk_wf st h
    rw [e]
    exact ⟨none, hj1, by simp [usesVehicle, ht], hj2⟩
  | UsingTransit s g route st1 st2 =>
    have e : gvStep st t = gvWalk st := by simp only [gvStep, ht]
    obtain ⟨hj1, hj2⟩ := gvWalk_wf st h
    rw [e]
    exact ⟨none, hj1, by simp [usesVehicle, ht], hj2⟩

lemma gvLoop_wf :
    ∀ (trips : List IndividTrip) (st : GvState), GvWF st →
      GvWF (gvLoop st trips)
      ∧ (gvLoop st trips).vehicle_foreach_trip.map Option.isSome
        = st.vehicle_foreach_trip.map Option.isSome
          ++ trips.map (fun t => usesVehicle t.trip)
  | [], st, h => ⟨h, by simp [gvLoop]⟩
  | t :: rest, st, h => by
    obtain ⟨o, ho1, ho2, ho3⟩ := gvStep_wf st t h
    obtain ⟨ih1, ih2⟩ := gvLoop_wf rest (gvStep st t) ho3
    refine ⟨ih1, ?_⟩
    show (gvLoop (gvStep st t) rest).vehicle_foreach_trip.map Option.isSome = _
    rw [ih2, ho1]
    simp [ho2]

lemma gvWF_init (rng : Rng) : GvWF ⟨[], [], [], none, [], rng⟩ := by
  refine ⟨by simp, by simp, ?_, by simp⟩
  intro j hj
  exact absurd hj (by simp)

lemma get_vehicles_wf (p : PersonSpec) (rng : Rng) :
    GvWF (get_vehicles p rng)
    ∧ (get_vehicles p rng).vehicle_foreach_trip.map Option.isSome
      = p.trips.map (fun t => usesVehicle t.trip) := by
  obtain ⟨h1, h2⟩ := gvLoop_wf p.trips ⟨[], [], [], none, [], rng⟩ (gvWF_init rng)
  exact ⟨h1, by simpa using h2⟩

lemma zip_pointwise {α β γ : Type} (f : α → γ) (g : β → γ) :
    ∀ (l1 : List α) (l2 : List β), l1.map f = l2.map g →
      ∀ pr ∈ l1.zip l2, f pr.1 = g pr.2
  | [], l2, h, pr, hpr => absurd hpr (List.not_mem_nil pr)
  | a :: t1, [], h, pr, hpr => absurd hpr (List.not_mem_nil pr)
  | a :: t1, b :: t2, h, pr, hpr => by
    simp only [List.map_cons, List.cons.injEq] at h
    rcases List.mem_cons.mp hpr with rfl | hpr
    · exact h.1
    · exact zip_pointwise f g t1 t2 h.2 pr hpr

lemma gv_pair_safe (p : PersonSpec) (rng : Rng) :
    ∀ pr ∈ p.trips.zip (get_vehicles p rng).vehicle_foreach_trip,
      ∀ (rng2 : Rng) (m2 : MapM), toTripSpec pr.1.trip pr.2 rng2 m2 ≠ .error () := by
  intro pr hpr rng2 m2
  have hpt : usesVehicle pr.1.trip = pr.2.isSome :=
    zip_pointwise (fun t => usesVehicle t.trip) Option.isSome p.trips
      (get_vehicles p rng).vehicle_foreach_trip
      (get_vehicles_wf p rng).2.symm pr hpr
  cases htr : pr.1.trip with
  | VehicleAppearing pos goal is_bike =>
    rw [htr] at hpt
    simp only [usesVehicle] at hpt
    obtain ⟨v, hv⟩ := Option.isSome_iff_exists.mp hpt.symm
    rw [hv]
    simp [toTripSpec]
  | FromBorder i goal is_bike =>
    rw [htr] at hpt
    simp only [usesVehicle] at hpt
    obtain ⟨v, hv⟩ := Option.isSome_iff_exists.mp hpt.symm
    rw [hv]
    cases hcl : chooseLane (m2.outgoing_lanes i is_bike) rng2 with
    | none => simp [toTripSpec, hcl]
    | some l =>
      cases hsv : m2.spawn_vehicle_at ⟨l, 0⟩ is_bike with
      | none => simp [toTripSpec, hcl, hsv]
      | some pos2 => simp [toTripSpec, hcl, hsv]
  | UsingParkedCar b goal =>
    rw [htr] at hpt
    simp only [usesVehicle] at hpt
    obtain ⟨v, hv⟩ := Option.isSome_iff_exists.mp hpt.symm
    rw [hv]
    simp [toTripSpec]
  | UsingBike s goal =>
    rw [htr] at hpt
    simp only [usesVehicle] at hpt
    obtain ⟨v, hv⟩ := Option.isSome_iff_exists.mp hpt.symm
    rw [hv]
    simp [toTripSpec]
  | JustWalking s g =>
    simp [toTripSpec]
  | UsingTransit s g route st1 st2 =>
    simp [toTripSpec]

/-- C10: for every person and generator, `get_vehicles` produces exactly one
vehicle choice per trip, `some` exactly for the vehicle-using variants
(`VehicleAppearing`, `FromBorder`, `UsingParkedCar`, `UsingBike`) and `none`
exactly for `JustWalking`/`UsingTransit`; consequently, pairing each trip with
its assigned choice, the `use_vehicle.unwrap()` inside `to_trip_spec` never
panics. -/
theorem get_vehicles_pairing_safe (p : PersonSpec) (rng : Rng) :
    (get_vehicles p rng).vehicle_foreach_trip.map Option.isSome
      = p.trips.map (fun t => usesVehicle t.trip)
    ∧ ∀ pr ∈ p.trips.zip (get_vehicles p rng).vehicle_foreach_trip,
        ∀ (rng2 : Rng) (m2 : MapM),
          toTripSpec pr.1.trip pr.2 rng2 m2 ≠ .error () :=
  ⟨(get_vehicles_wf p rng).2, gv_pair_safe p rng⟩

/-- A person mixing a walking trip and a driving trip, for concrete checks. -/
def cPersonMix : PersonSpec :=
  ⟨0, (0, 0),
    [⟨0, .JustWalking ⟨.Building 1⟩ ⟨.Building 2⟩⟩,
     ⟨1, .VehicleAppearing ⟨0, 0⟩ (.ParkNear 1) false⟩]⟩

/-- Witness for C10 at concrete data. -/
theorem get_vehicles_pairing_safe_witness :
    (get_vehicles cPersonMix ⟨0⟩).vehicle_foreach_trip.map Option.isSome
      = cPersonMix.trips.map (fun t => usesVehicle t.trip)
    ∧ toTripSpec (SpawnTrip.JustWalking ⟨.Building 1⟩ ⟨.Building 2⟩) none ⟨5⟩
        cMapPath ≠ .error () :=
  ⟨(get_vehicles_pairing_safe cPersonMix ⟨0⟩).1,
   (get_vehicles_pairing_safe cPersonMix ⟨0⟩).2
     (⟨0, .JustWalking ⟨.Building 1⟩ ⟨.Building 2⟩⟩, none) (by decide) ⟨5⟩ cMapPath⟩

lemma collectPairs_ok (pid : Nat) (specs : List VehicleSpec) :
    ∀ l : List (Nat × Nat), (∀ pr ∈ l, pr.1 < specs.length) →
      collectPairs pid specs l = .ok (l.map fun pr => ((pid, pr.1), pr.2))
  | [], _ => rfl
  | (idx, b) :: rest, h => by
    have hlt : idx < specs.length := h (idx, b) (List.mem_cons_self _ _)
    simp only [collectPairs, List.get?_eq_get hlt,
      collectPairs_ok pid specs rest (fun pr hpr => h pr (List.mem_cons_of_mem _ hpr)),
      List.map_cons]

lemma tripsLoop_ok (m : MapM) (pid : Nat) (specs : List VehicleSpec) (rng : Rng) :
    ∀ l : List (IndividTrip × Option Nat),
      (∀ pr ∈ l, (∀ j, pr.2 = some j → j < specs.length)
        ∧ ∀ (rng2 : Rng) (m2 : MapM),
            toTripSpec pr.1.trip pr.2 rng2 m2 ≠ .error ()) →
      ∃ sched warns, tripsLoop m pid specs rng l = .ok (sched, warns)
        ∧ sched.length + warns = l.length
  | [], _ => ⟨[], 0, rfl, rfl⟩
  | (t, maybe_idx) :: rest, h => by
    obtain ⟨hbound, hsafe⟩ := h (t, maybe_idx) (List.mem_cons_self _ _)
    have hvid : resolveVid specs maybe_idx = .ok maybe_idx := by
      cases maybe_idx with
      | none => rfl
      | some idx =>
        have hlt : idx < specs.length := hbound idx rfl
        simp only [resolveVid, List.get?_eq_get hlt]
    obtain ⟨sched, warns, hrec, hcount⟩ :=
      tripsLoop_ok m pid specs rng rest
        (fun pr hpr => h pr (List.mem_cons_of_mem _ hpr))
    have hts := hsafe (fork_rng rng).1 m
    cases hcur : toTripSpec t.trip maybe_idx (fork_rng rng).1 m with
    | error e =>
      cases e
      exact absurd hcur hts
    | ok cur =>
      cases cur with
      | none =>
        refine ⟨sched, warns + 1, ?_, ?_⟩
        · simp only [tripsLoop, hvid, hcur, hrec]
        · simp only [List.length_cons]
          omega
      | some spec =>
        refine ⟨(pid, t.depart, spec) :: sched, warns, ?_, ?_⟩
        · simp only [tripsLoop, hvid, hcur, hrec]
        · simp only [List.length_cons]
          omega

lemma instPeople_ok (m : MapM) :
    ∀ (people : List PersonSpec) (rng : Rng),
      ∃ persons pairs sched warns rng2,
        instPeople m people rng = .ok (persons, pairs, sched, warns, rng2)
        ∧ persons.map Prod.fst = people.map (fun p => p.id)
        ∧ sched.length + warns = (people.map fun p => p.trips.length).sum
  | [], rng => ⟨[], [], [], 0, rng, rfl, rfl, rfl⟩
  | p :: rest, rng => by
    obtain ⟨hwf, hmap⟩ := get_vehicles_wf p rng
    obtain ⟨hwf1, hwf2, hwf3, hwf4⟩ := hwf
    have hcp := collectPairs_ok p.id (get_vehicles p rng).vehicle_specs
      (get_vehicles p rng).cars_initially_parked_at hwf1
    have hzip : ∀ pr ∈ p.trips.zip (get_vehicles p rng).vehicle_foreach_trip,
        (∀ j, pr.2 = some j → j < (get_vehicles p rng).vehicle_specs.length)
        ∧ ∀ (rng2 : Rng) (m2 : MapM),
            toTripSpec pr.1.trip pr.2 rng2 m2 ≠ .error () := by
      intro pr hpr
      refine ⟨?_, gv_pair_safe p rng pr hpr⟩
      intro j hj
      exact hwf2 pr.2 (List.of_mem_zip hpr).2 j hj
    obtain ⟨sched, warns, htl, hcount⟩ :=
      tripsLoop_ok m p.id (get_vehicles p rng).vehicle_specs
        ((rand_ped_speed (get_vehicles p rng).rng).2)
        (p.trips.zip (get_vehicles p rng).vehicle_foreach_trip) hzip
    obtain ⟨persons, pairs2, sched2, warns2, rng2, hip, hids, hcnt2⟩ :=
      instPeople_ok m rest ((rand_ped_speed (get_vehicles p rng).rng).2)
    refine ⟨(p.id, (get_vehicles p rng).vehicle_specs) :: persons,
      ((get_vehicles p rng).cars_initially_parked_at.map
        fun pr => ((p.id, pr.1), pr.2)) ++ pairs2,
      sched ++ sched2, warns + warns2, rng2, ?_, ?_, ?_⟩
    · simp only [instPeople, hcp, htl, hip]
    · simp [hids]
    · have hfl : (get_vehicles p rng).vehicle_foreach_trip.length
          = p.trips.length := by
        have := congrArg List.length hmap
        simpa using this
      have hzl : (p.trips.zip
          (get_vehicles p rng).vehicle_foreach_trip).length = p.trips.length := by
        simp [List.length_zip, hfl]
      rw [hzl] at hcount
      simp only [List.map_cons, List.sum_cons, List.length_append]
      omega

lemma instantiate_ok (s : ScenarioSpec) (m : MapM) (ext : RandExt)
    (free_spots : List ParkingSpot) (rng : Rng) (fuel : Nat)
    (persons : List (Nat × List VehicleSpec)) (pairs : List ((Nat × Nat) × Nat))
    (sched : List (Nat × Nat × TripSpec)) (warns : Nat) (rng2 : Rng)
    (hip : instPeople m s.people rng = .ok (persons, pairs, sched, warns, rng2)) :
    instantiate s m ext free_spots rng fuel = .ok
      ⟨(match s.only_seed_buses with
        | none => m.bus_routes
        | some rs => m.bus_routes.filter fun route => rs.contains route),
       persons, pairs, sched, warns,
       seed_parked_cars m ext fuel (ext.shufflePairs pairs rng2).1 free_spots
         (ext.shufflePairs pairs rng2).2⟩ := by
  simp only [instantiate, hip]

/-- C7: a per-trip resolution failure never aborts scenario instantiation —
`instantiate` always completes, registers every person, and accounts for every
trip of every person with either one scheduled spec or one warning (so a trip
whose `to_trip_spec` yields nothing is dropped alone, with one warning, while
all remaining trips and people are still processed); in particular, a
`FromBorder` trip whose border has no outgoing lane compatible with the
vehicle's movement class resolves to "no spec produced", not a panic. -/
theorem instantiate_survives_trip_failures :
    (∀ (s : ScenarioSpec) (m : MapM) (ext : RandExt)
        (free_spots : List ParkingSpot) (rng : Rng) (fuel : Nat),
      ∃ res, instantiate s m ext free_spots rng fuel = .ok res
        ∧ res.persons.map Prod.fst = s.people.map (fun p => p.id)
        ∧ res.scheduled.length + res.trip_warnings
          = (s.people.map fun p => p.trips.length).sum)
    ∧ ∀ (i : Nat) (goal : DrivingGoal) (is_bike : Bool) (uv : Option Nat)
        (rng2 : Rng) (m2 : MapM),
        m2.outgoing_lanes i is_bike = [] →
        toTripSpec (.FromBorder i goal is_bike) uv rng2 m2 = .ok none := by
  constructor
  · intro s m ext free_spots rng fuel
    obtain ⟨persons, pairs, sched, warns, rng2, hip, hids, hcnt⟩ :=
      instPeople_ok m s.people rng
    exact ⟨_, instantiate_ok s m ext free_spots rng fuel persons pairs sched
      warns rng2 hip, hids, hcnt⟩
  · intro i goal is_bike uv rng2 m2 h
    simp [toTripSpec, h, chooseLane]

/-- A one-person scenario whose only trip enters from a border. -/
def cScenario7 : ScenarioSpec :=
  ⟨"s", "m", [⟨0, (0, 0), [⟨0, .FromBorder 0 (.ParkNear 1) false⟩]⟩], some []⟩

/-- Identity oracles for the external shuffles. -/
def cExt : RandExt :=
  ⟨fun l r => (l, r), fun l _ => l⟩

/-- Witness for C7 at concrete data (the map has no outgoing lanes, so the
border trip is dropped with a warning and instantiation still completes). -/
theorem instantiate_survives_trip_failures_witness :
    (∃ res, instantiate cScenario7 cMapPath cExt [] ⟨0⟩ 1 = .ok res
      ∧ res.persons.map Prod.fst = cScenario7.people.map (fun p => p.id)
      ∧ res.scheduled.length + res.trip_warnings
        = (cScenario7.people.map fun p => p.trips.length).sum)
    ∧ toTripSpec (.FromBorder 0 (.ParkNear 1) false) (some 0) ⟨3⟩ cMapPath
      = .ok none :=
  ⟨instantiate_survives_trip_failures.1 cScenario7 cMapPath cExt [] ⟨0⟩ 1,
   instantiate_survives_trip_failures.2 0 (.ParkNear 1) false (some 0) ⟨3⟩
     cMapPath rfl⟩

/-- The parts of a `get_vehicles` loop state that are independent of the
generator: everything except the vehicles' random lengths/speeds (vehicle
types are kept) and the generator itself. -/
def GvRel (s1 s2 : GvState) : Prop :=
  s1.vehicle_specs.map (fun v => v.vehicle_type)
    = s2.vehicle_specs.map (fun v => v.vehicle_type)
  ∧ s1.cars_initially_parked_at = s2.cars_initially_parked_at
  ∧ s1.vehicle_foreach_trip = s2.vehicle_foreach_trip
  ∧ s1.bike_idx = s2.bike_idx
  ∧ s1.car_locations = s2.car_locations

lemma gvBike_rel (s1 s2 : GvState) (h : GvRel s1 s2) :
    GvRel (gvBike s1) (gvBike s2) := by
  obtain ⟨ht, hc, hf, hb, hl⟩ := h
  have hlen : s1.vehicle_specs.length = s2.vehicle_specs.length := by
    have := congrArg List.length ht
    simpa using this
  cases hb1 : s1.bike_idx with
  | some i =>
    have hb2 : s2.bike_idx = some i := by rw [← hb, hb1]
    have e1 : gvBike s1 = { s1 with
        vehicle_foreach_trip := s1.vehicle_foreach_trip ++ [some i] } := by
      simp only [gvBike, hb1]
    have e2 : gvBike s2 = { s2 with
        vehicle_foreach_trip := s2.vehicle_foreach_trip ++ [some i] } := by
      simp only [gvBike, hb2]
    rw [e1, e2]
    exact ⟨ht, hc, by rw [hf], hb, hl⟩
  | none =>
    have hb2 : s2.bike_idx = none := by rw [← hb, hb1]
    have e1 : gvBike s1 = { s1 with
        vehicle_specs := s1.vehicle_specs ++ [(rand_bike s1.rng).1],
        bike_idx := some s1.vehicle_specs.length,
        rng := (rand_bike s1.rng).2,
        vehicle_foreach_trip :=
          s1.vehicle_foreach_trip ++ [some s1.vehicle_specs.length] } := by
      simp only [gvBike, hb1]
    have e2 : gvBike s2 = { s2 with
        vehicle_specs := s2.vehicle_specs ++ [(rand_bike s2.rng).1],
        bike_idx := some s2.vehicle_specs.length,
        rng := (rand_bike s2.rng).2,
        vehicle_foreach_trip :=
          s2.vehicle_foreach_trip ++ [some s2.vehicle_specs.length] } := by
      simp only [gvBike, hb2]
    rw [e1, e2]
    refine ⟨?_, hc, ?_, ?_, hl⟩
    · simp only [List.map_append]
      rw [ht]
      rfl
    · rw [hf, hlen]
    · rw [hlen]

lemma gvCarTrip_rel (s1 s2 : GvState) (goal : DrivingGoal) (h : GvRel s1 s2) :
    GvRel (gvCarTrip s1 goal) (gvCarTrip s2 goal) := by
  obtain ⟨ht, hc, hf, hb, hl⟩ := h
  have hlen : s1.vehicle_specs.length = s2.vehicle_specs.length := by
    have := congrArg List.length ht
    simpa using this
  cases hf1 : s1.car_locations.find? (fun pr => pr.2.isNone) with
  | some pr =>
    have hf2 : s2.car_locations.find? (fun pr => pr.2.isNone) = some pr := by
      rw [← hl, hf1]
    have e1 : gvCarTrip s1 goal = { s1 with
        car_locations :=
          (s1.car_locations.filter fun x => pr.1 != x.1) ++ [(pr.1, goalLoc goal)],
        vehicle_foreach_trip := s1.vehicle_foreach_trip ++ [some pr.1] } := by
      simp only [gvCarTrip, hf1]
    have e2 : gvCarTrip s2 goal = { s2 with
        car_locations :=
          (s2.car_locations.filter fun x => pr.1 != x.1) ++ [(pr.1, goalLoc goal)],
        vehicle_foreach_trip := s2.vehicle_foreach_trip ++ [some pr.1] } := by
      simp only [gvCarTrip, hf2]
    rw [e1, e2]
    exact ⟨ht, hc, by rw [hf], hb, by rw [hl]⟩
  | none =>
    have hf2 : s2.car_locations.find? (fun pr => pr.2.isNone) = none := by
      rw [← hl, hf1]
    have e1 : gvCarTrip s1 goal = { s1 with
        vehicle_specs := s1.vehicle_specs ++ [(rand_car s1.rng).1],
        rng := (rand_car s1.rng).2,
        car_locations :=
          (s1.car_locations.filter fun x => s1.vehicle_specs.length != x.1)
            ++ [(s1.vehicle_specs.length, goalLoc goal)],
        vehicle_foreach_trip :=
          s1.vehicle_foreach_trip ++ [some s1.vehicle_specs.length] } := by
      simp only [gvCarTrip, hf1]
    have e2 : gvCarTrip s2 goal = { s2 with
        vehicle_specs := s2.vehicle_specs ++ [(rand_car s2.rng).1],
        rng := (rand_car s2.rng).2,
        car_locations :=
          (s2.car_locations.filter fun x => s2.vehicle_specs.length != x.1)
            ++ [(s2.vehicle_specs.length, goalLoc goal)],
        vehicle_foreach_trip :=
          s2.vehicle_foreach_trip ++ [some s2.vehicle_specs.length] } := by
      simp only [gvCarTrip, hf2]
    rw [e1, e2]
    refine ⟨?_, hc, ?_, hb, ?_⟩
    · simp only [List.map_append]
      rw [ht]
      rfl
    · rw [hf, hlen]
    · rw [hl, hlen]

lemma gvParkedCar_rel (s1 s2 : GvState) (b : Nat) (goal : DrivingGoal)
    (h : GvRel s1 s2) : GvRel (gvParkedCar s1 b goal) (gvParkedCar s2 b goal) := by
  obtain ⟨ht, hc, hf, hb, hl⟩ := h
  have hlen : s1.vehicle_specs.length = s2.vehicle_specs.length := by
    have := congrArg List.length ht
    simpa using this
  cases hf1 : s1.car_locations.find? (fun pr => pr.2 == some b) with
  | some pr =>
    have hf2 : s2.car_locations.find? (fun pr => pr.2 == some b) = some pr := by
      rw [← hl, hf1]
    have e1 : gvParkedCar s1 b goal = { s1 with
        car_locations :=
          (s1.car_locations.filter fun x => pr.1 != x.1) ++ [(pr.1, goalLoc goal)],
        vehicle_foreach_trip := s1.vehicle_foreach_trip ++ [some pr.1] } := by
      simp only [gvParkedCar, hf1]
    have e2 : gvParkedCar s2 b goal = { s2 with
        car_locations :=
          (s2.car_locations.filter fun x => pr.1 != x.1) ++ [(pr.1, goalLoc goal)],
        vehicle_foreach_trip := s2.vehicle_foreach_trip ++ [some pr.1] } := by
      simp only [gvParkedCar, hf2]
    rw [e1, e2]
    exact ⟨ht, hc, by rw [hf], hb, by rw [hl]⟩
  | none =>
    have hf2 : s2.car_locations.find? (fun pr => pr.2 == some b) = none := by
      rw [← hl, hf1]
    have e1 : gvParkedCar s1 b goal = { s1 with
        vehicle_specs := s1.vehicle_specs ++ [(rand_car s1.rng).1],
        rng := (rand_car s1.rng).2,
        cars_initially_parked_at :=
          s1.cars_initially_parked_at ++ [(s1.vehicle_specs.length, b)],
        car_locations :=
          (s1.car_locations.filter fun x => s1.vehicle_specs.length != x.1)
            ++ [(s1.vehicle_specs.length, goalLoc goal)],
        vehicle_foreach_trip :=
          s1.vehicle_foreach_trip ++ [some s1.vehicle_specs.length] } := by
      simp only [gvParkedCar, hf1]
    have e2 : gvParkedCar s2 b goal = { s2 with
        vehicle_specs := s2.vehicle_specs ++ [(rand_car s2.rng).1],
        rng := (rand_car s2.rng).2,
        cars_initially_parked_at :=
          s2.cars_initially_parked_at ++ [(s2.vehicle_specs.length, b)],
        car_locations :=
          (s2.car_locations.filter fun x => s2.vehicle_specs.length != x.1)
            ++ [(s2.vehicle_specs.length, goalLoc goal)],
        vehicle_foreach_trip :=
          s2.vehicle_foreach_trip ++ [some s2.vehicle_specs.length] } := by
      simp only [gvParkedCar, hf2]
    rw [e1, e2]
    refine ⟨?_, ?_, ?_, hb, ?_⟩
    · simp only [List.map_append]
      rw [ht]
      rfl
    · rw [hc, hlen]
    · rw [hf, hlen]
    · rw [hl, hlen]

lemma gvStep_rel (s1 s2 : GvState) (t : IndividTrip) (h : GvRel s1 s2) :
    GvRel (gvStep s1 t) (gvStep s2 t) := by
  cases ht : t.trip with
  | VehicleAppearing pos goal is_bike =>
    simp only [gvStep, ht]
    cases is_bike
    · simpa using gvCarTrip_rel s1 s2 goal h
    · simpa using gvBike_rel s1 s2 h
  | FromBorder i goal is_bike =>
    simp only [gvStep, ht]
    cases is_bike
    · simpa using gvCarTrip_rel s1 s2 goal h
    · simpa using gvBike_rel s1 s2 h
  | UsingParkedCar b goal =>
    simp only [gvStep, ht]
    exact gvParkedCar_rel s1 s2 b goal h
  | UsingBike s goal =>
    simp only [gvStep, ht]
    exact gvBike_rel s1 s2 h
  | JustWalking s g =>
    obtain ⟨ht2, hc, hff, hb, hl⟩ := h
    simp only [gvStep, ht]
    exact ⟨ht2, hc, by simp only [gvWalk]; rw [hff], hb, hl⟩
  | UsingTransit s g route st1 st2 =>
    obtain ⟨ht2, hc, hff, hb, hl⟩ := h
    simp only [gvStep, ht]
    exact ⟨ht2, hc, by simp only [gvWalk]; rw [hff], hb, hl⟩

lemma gvLoop_rel :
    ∀ (trips : List IndividTrip) (s1 s2 : GvState), GvRel s1 s2 →
      GvRel (gvLoop s1 trips) (gvLoop s2 trips)
  | [], _, _, h => h
  | t :: rest, s1, s2, h =>
    gvLoop_rel rest (gvStep s1 t) (gvStep s2 t) (gvStep_rel s1 s2 t h)

lemma get_vehicles_rel (p : PersonSpec) (r1 r2 : Rng) :
    GvRel (get_vehicles p r1) (get_vehicles p r2) :=
  gvLoop_rel p.trips ⟨[], [], [], none, [], r1⟩ ⟨[], [], [], none, [], r2⟩
    ⟨rfl, rfl, rfl, rfl, rfl⟩

lemma length_filter_snd {γ : Type} (b : Nat) :
    ∀ l : List (γ × Nat),
      (l.filter fun pr => pr.2 == b).length
        = ((l.map fun pr => pr.2).filter fun y => y == b).length
  | [] => rfl
  | x :: rest => by
    simp only [List.map_cons, List.filter_cons]
    cases hxb : x.2 == b
    · simp [hxb, length_filter_snd b rest]
    · simp [hxb, length_filter_snd b rest]

lemma instPeople_pairs_bldgs (m : MapM) :
    ∀ (people : List PersonSpec) (rngA rngB : Rng)
      (persons : List (Nat × List VehicleSpec)) (pairs : List ((Nat × Nat) × Nat))
      (sched : List (Nat × Nat × TripSpec)) (warns : Nat) (rng2 : Rng),
      instPeople m people rngA = .ok (persons, pairs, sched, warns, rng2) →
      pairs.map (fun pr => pr.2) = (countPeople people rngB).map (fun pr => pr.2)
  | [], rngA, rngB, persons, pairs, sched, warns, rng2 => by
    intro h
    simp only [instPeople, Except.ok.injEq, Prod.mk.injEq] at h
    obtain ⟨-, h2, -, -, -⟩ := h
    rw [← h2]
    simp [countPeople]
  | p :: rest, rngA, rngB, persons, pairs, sched, warns, rng2 => by
    intro h
    obtain ⟨hwfA, -⟩ := get_vehicles_wf p rngA
    have hcp := collectPairs_ok p.id (get_vehicles p rngA).vehicle_specs
      (get_vehicles p rngA).cars_initially_parked_at hwfA.1
    simp only [instPeople, hcp] at h
    cases htl : tripsLoop m p.id (get_vehicles p rngA).vehicle_specs
        ((rand_ped_speed (get_vehicles p rngA).rng).2)
        (p.trips.zip (get_vehicles p rngA).vehicle_foreach_trip) with
    | error e =>
      rw [htl] at h
      simp at h
    | ok pr2 =>
      obtain ⟨sched1, warns1⟩ := pr2
      rw [htl] at h
      cases hip : instPeople m rest
          ((rand_ped_speed (get_vehicles p rngA).rng).2) with
      | error e =>
        rw [hip] at h
        simp at h
      | ok quint =>
        obtain ⟨persons2, pairs2, sched2, warns2, rng3⟩ := quint
        rw [hip] at h
        simp only [Except.ok.injEq, Prod.mk.injEq] at h
        obtain ⟨-, h2, -, -, -⟩ := h
        rw [← h2, List.map_append, List.map_map]
        rw [instPeople_pairs_bldgs m rest _ ((get_vehicles p rngB).rng)
          persons2 pairs2 sched2 warns2 rng3 hip]
        have hrel := (get_vehicles_rel p rngA rngB).2.1
        simp only [countPeople, List.map_append]
        rw [hrel]
        rfl

/-- C9: the outputs of `get_vehicles` that drive control flow — the
initially-parked list, the per-trip vehicle choices, the vehicle types and the
vehicle count — are identical for any two generator states (only the random
lengths and speeds differ); consequently `count_parked_cars_per_bldg`, which
runs on a fixed dummy seed, reports exactly the per-building counts of the
parked pairs collected during `instantiate` with the real generator. -/
theorem get_vehicles_rng_independent :
    (∀ (p : PersonSpec) (r1 r2 : Rng),
      (get_vehicles p r1).cars_initially_parked_at
        = (get_vehicles p r2).cars_initially_parked_at
      ∧ (get_vehicles p r1).vehicle_foreach_trip
        = (get_vehicles p r2).vehicle_foreach_trip
      ∧ (get_vehicles p r1).vehicle_specs.map (fun v => v.vehicle_type)
        = (get_vehicles p r2).vehicle_specs.map (fun v => v.vehicle_type)
      ∧ (get_vehicles p r1).vehicle_specs.length
        = (get_vehicles p r2).vehicle_specs.length)
    ∧ ∀ (s : ScenarioSpec) (m : MapM) (ext : RandExt)
        (free_spots : List ParkingSpot) (rng : Rng) (fuel : Nat)
        (res : InstResult) (b : Nat),
        instantiate s m ext free_spots rng fuel = .ok res →
        (res.parked_pairs.filter fun pr => pr.2 == b).length
          = count_parked_cars_per_bldg s b := by
  constructor
  · intro p r1 r2
    obtain ⟨ht, hc, hff, hb, hl⟩ := get_vehicles_rel p r1 r2
    refine ⟨hc, hff, ht, ?_⟩
    have := congrArg List.length ht
    simpa using this
  · intro s m ext free_spots rng fuel res b h
    cases hip : instPeople m s.people rng with
    | error e =>
      simp only [instantiate, hip] at h
      exact absurd h (by simp)
    | ok quint =>
      obtain ⟨persons, pairs, sched, warns, rng2⟩ := quint
      rw [instantiate_ok s m ext free_spots rng fuel persons pairs sched warns
        rng2 hip] at h
      have hres : res.parked_pairs = pairs := by
        rw [← Except.ok.inj h]
      rw [hres]
      simp only [count_parked_cars_per_bldg]
      rw [length_filter_snd b pairs, length_filter_snd b (countPeople s.people ⟨0⟩),
        instPeople_pairs_bldgs m s.people rng ⟨0⟩ persons pairs sched warns rng2 hip]

/-- An empty scenario, for the C9 witness. -/
def cScenarioEmpty : ScenarioSpec := ⟨"e", "m", [], some []⟩

/-- Witness for C9 at concrete data. -/
theorem get_vehicles_rng_independent_witness :
    ((get_vehicles cPersonMix ⟨1⟩).cars_initially_parked_at
      = (get_vehicles cPersonMix ⟨2⟩).cars_initially_parked_at)
    ∧ ∃ res, instantiate cScenarioEmpty cMapPath cExt [] ⟨0⟩ 1 = .ok res
        ∧ (res.parked_pairs.filter fun pr => pr.2 == 0).length
          = count_parked_cars_per_bldg cScenarioEmpty 0 :=
  ⟨(get_vehicles_rng_independent.1 cPersonMix ⟨1⟩ ⟨2⟩).1,
   ⟨_, rfl, get_vehicles_rng_independent.2 cScenarioEmpty cMapPath cExt []
     ⟨0⟩ 1 _ 0 rfl⟩⟩
